import Mathlib

/-! Lima hardware buffer managers.

A shallow embedding of `hardware/src/HwBufferMgr.cpp`: the host-memory pool
`SoftBufferAllocMgr` and the frame manager `StdBufferCbMgr` that wraps it.

Conventions of the embedding.

* A member function that can throw after changing the object returns the
  object as the caller finds it together with a `Result`.
* `Result.raise` is a C++ exception leaving the function, `Result.undefined` is
  undefined behaviour (unchecked `std::vector::operator[]`, `%` or `/` by zero):
  nothing is thrown there.
* `int` and `long long` arithmetic is done in `Int` and brought back into range
  with `wrapInt` and `wrapLL` at the places where the source converts.
* What the operating system and the heap answer (`sysinfo`, `new char[]`,
  `std::vector::reserve`) is read from an `Env`.
* An argument `const FrameDim&` of `allocBuffers` is a `FrameDimRef`: either an object of
  the caller or the pool's own `m_frame_dim`, which `releaseBuffers()` overwrites during
  the call.
-/

namespace Lima

/-! ## Machine integers -/

/-- The largest `int`. -/
def INT_MAX : Int := 2147483647

/-- Conversion to a 32-bit `int` (two's complement). -/
def wrapInt (x : Int) : Int := (x + 2147483648) % 4294967296 - 2147483648

/-- Conversion to a 64-bit `long long` (two's complement). -/
def wrapLL (x : Int) : Int :=
  (x + 9223372036854775808) % 18446744073709551616 - 9223372036854775808

/-! ## Collaborators declared outside this file -/

/-- Modelled from the spec: the frame geometry type `FrameDim` is declared in a header
that is not part of the sources. The spec treats it as an opaque value with a byte size
per frame (`getMemSize()`, an `int`) and an equality test; `shape` stands for everything
else that equality looks at. -/
structure FrameDim where
  shape : Nat
  memSize : Int
deriving DecidableEq, Repr

/-- Modelled from the spec: the default-constructed `FrameDim()`, the "unset" geometry. -/
def FrameDim.unset : FrameDim := ⟨0, 0⟩

/-- The accessor `frame_dim.getMemSize()`. -/
def FrameDim.getMemSize (d : FrameDim) : Int := d.memSize

/-- Modelled from the spec: the type `Timestamp` is declared in a header that is not part
of the sources. The spec describes a point in time with a distinct "unset" state, an
"is set" query and a subtraction giving a relative time. -/
structure Timestamp where
  time : Option Int
deriving DecidableEq, Repr

/-- Modelled from the spec: the default-constructed `Timestamp()`, which is unset. -/
def Timestamp.unset : Timestamp := ⟨none⟩

/-- Modelled from the spec: a timestamp holding the instant `c`. -/
def Timestamp.ofTime (c : Int) : Timestamp := ⟨some c⟩

/-- Modelled from the spec: the query `ts.isSet()`. -/
def Timestamp.isSet (t : Timestamp) : Bool := t.time.isSome

/-- Modelled from the spec: `a - b` on timestamps, the time of `a` relative to `b`. -/
def Timestamp.sub (a b : Timestamp) : Timestamp :=
  match a.time, b.time with
  | some x, some y => ⟨some (x - y)⟩
  | _, _ => ⟨none⟩

/-! ## Exceptions and results -/

/-- The first argument of `LIMA_HW_EXC` as this file uses it. -/
inductive ErrorType where
  | InvalidValue
  | Error
deriving DecidableEq, Repr

/-- What can be thrown: a `LIMA_HW_EXC(type, msg)` or a `std::bad_alloc` from the heap. -/
inductive Exception where
  | hw (type : ErrorType) (msg : String)
  | bad_alloc
deriving DecidableEq, Repr

/-- The outcome of a call: a value, a thrown exception, or undefined behaviour. -/
inductive Result (α : Type) where
  | ok (val : α)
  | raise (e : Exception)
  | undefined
deriving DecidableEq, Repr

/-- The fields of `struct sysinfo` that the code reads. -/
structure SysInfo where
  totalram : Nat
  mem_unit : Nat
deriving DecidableEq, Repr

/-- The answers of the operating system and of the heap during one call.
`sysinfo = none` is `sysinfo()` returning a negative value; `reserve_ok` is whether
`m_buffer_list.reserve` succeeds; `new_char i` is the address returned by the `i`-th
`new char[frame_size]` of the call, or `none` when it throws; `ts_reserve_ok` is whether
`m_ts_list.reserve` succeeds. -/
structure Env where
  sysinfo : Option SysInfo
  reserve_ok : Bool
  new_char : Nat → Option Nat
  ts_reserve_ok : Bool

/-! ## SoftBufferAllocMgr -/

/-- One element of `m_buffer_list`: the pointer returned by `new char[frame_size]`,
with the number of bytes that were requested for it. -/
structure HeapBlock where
  ptr : Nat
  size : Int
deriving DecidableEq, Repr

/-- The data members of `SoftBufferAllocMgr`. -/
structure SoftBufferAllocMgr where
  m_frame_dim : FrameDim
  m_buffer_list : List HeapBlock
deriving DecidableEq, Repr

/-- What an argument `const FrameDim& frame_dim` of `allocBuffers` refers to: an object
that no statement of the call changes, or the data member `m_frame_dim` of the pool that is
called (or wrapped), which is what `getFrameDim()` returns, as in
`allocBuffers(n, getFrameDim())`. -/
inductive FrameDimRef where
  | obj (d : FrameDim)
  | member
deriving DecidableEq, Repr

/-- The value that the reference has while the pool is in the state `s`. -/
def FrameDimRef.read (r : FrameDimRef) (s : SoftBufferAllocMgr) : FrameDim :=
  match r with
  | .obj d => d
  | .member => s.m_frame_dim

namespace SoftBufferAllocMgr

/-- The function `SoftBufferAllocMgr::getSystemMem(int& mem_unit)`: the returned pair is the
return value and the final value of the reference argument. Signed overflow of the
`long long` product is taken to wrap around; a division by zero, or of the least
`long long` by -1, is undefined. -/
def getSystemMem (env : Env) (mem_unit : Int) : Result (Int × Int) :=
  if mem_unit < 0 then
    .raise (.hw .InvalidValue "Invalid mem_unit value")
  else
    match env.sysinfo with
    | none => .raise (.hw .Error "Error calling sysinfo")
    | some s_info =>
      let tot_mem0 : Int := wrapLL s_info.totalram
      let tot_mem : Int := wrapLL (tot_mem0 * s_info.mem_unit)
      let mem_unit1 : Int := if mem_unit = 0 then wrapInt s_info.mem_unit else mem_unit
      if mem_unit1 = 0 ∨ (tot_mem = -9223372036854775808 ∧ mem_unit1 = -1) then .undefined
      else
        let mem_blocks : Int := Int.tdiv tot_mem mem_unit1
        if mem_blocks > INT_MAX then
          .raise (.hw .Error "Too much memory to be described with the given mem_unit")
        else .ok (wrapInt mem_blocks, mem_unit1)

/-- The function `SoftBufferAllocMgr::getMaxNbBuffers`. -/
def getMaxNbBuffers (env : Env) (frame_dim : FrameDim) : Result Int :=
  let frame_size : Int := frame_dim.getMemSize
  if frame_size ≤ 0 then
    .raise (.hw .InvalidValue "Invalid FrameDim")
  else
    match getSystemMem env frame_size with
    | .ok (tot_buffers, _) => .ok (wrapInt (Int.tdiv (wrapLL (tot_buffers * 3)) 4))
    | .raise e => .raise e
    | .undefined => .undefined

/-- The constructor: no buffers and the default geometry. -/
def new : SoftBufferAllocMgr := ⟨FrameDim.unset, []⟩

/-- The function `releaseBuffers`: every buffer is deleted, the list is cleared and the
geometry is reset to `FrameDim()`. -/
def releaseBuffers (_s : SoftBufferAllocMgr) : SoftBufferAllocMgr :=
  { m_frame_dim := FrameDim.unset, m_buffer_list := [] }

/-- The accessor `getFrameDim`. -/
def getFrameDim (s : SoftBufferAllocMgr) : FrameDim := s.m_frame_dim

/-- The accessor `getNbBuffers`: `m_buffer_list.size()`, taken to fit an `int`, as it does
for every list that `allocBuffers` builds (its length is at most `max_buffers`). -/
def getNbBuffers (s : SoftBufferAllocMgr) : Int := (s.m_buffer_list.length : Int)

/-- The accessor `getBufferPtr`: `m_buffer_list[buffer_nb]`, an unchecked index. -/
def getBufferPtr (s : SoftBufferAllocMgr) (buffer_nb : Int) : Result Nat :=
  if 0 ≤ buffer_nb then
    match s.m_buffer_list[buffer_nb.toNat]? with
    | some b => .ok b.ptr
    | none => .undefined
  else .undefined

/-- The loop `for (i ...) m_buffer_list.push_back(new char[frame_size])` with `count`
rounds left and `i` the round reached: the list as the loop leaves it, and the
exception that ended it early, if any. -/
def pushBuffers (env : Env) (frame_size : Int) :
    Nat → Nat → List HeapBlock → List HeapBlock × Option Exception
  | 0, _, bl => (bl, none)
  | count + 1, i, bl =>
    match env.new_char i with
    | none => (bl, some .bad_alloc)
    | some p => pushBuffers env frame_size count (i + 1) (bl ++ [⟨p, frame_size⟩])

/-- The function `SoftBufferAllocMgr::allocBuffers(int nb_buffers, const FrameDim& frame_dim)`.
The argument is a reference: `frame_size` is read from it on entry, and it is read again,
in the state reached by then, by the comparison, by `getMaxNbBuffers(frame_dim)` after
`releaseBuffers()`, and by the final assignment to `m_frame_dim`. -/
def allocBuffers (env : Env) (s : SoftBufferAllocMgr) (nb_buffers : Int)
    (frame_dim : FrameDimRef) : SoftBufferAllocMgr × Result Unit :=
  let frame_size : Int := (frame_dim.read s).getMemSize
  if frame_size ≤ 0 then
    (s, .raise (.hw .InvalidValue "Invalid FrameDim"))
  else if frame_dim.read s = s.m_frame_dim ∧ nb_buffers = s.getNbBuffers then
    (s, .ok ())
  else
    let s1 := s.releaseBuffers
    match getMaxNbBuffers env (frame_dim.read s1) with
    | .raise e => (s1, .raise e)
    | .undefined => (s1, .undefined)
    | .ok max_buffers =>
      if nb_buffers < 1 ∨ nb_buffers > max_buffers then
        (s1, .raise (.hw .InvalidValue "Invalid number of buffers"))
      else if env.reserve_ok = false then
        (s1.releaseBuffers, .raise .bad_alloc)
      else
        match pushBuffers env frame_size nb_buffers.toNat 0 s1.m_buffer_list with
        | (bl, some e) => (releaseBuffers { s1 with m_buffer_list := bl }, .raise e)
        | (bl, none) =>
          let s2 : SoftBufferAllocMgr := { s1 with m_buffer_list := bl }
          ({ s2 with m_frame_dim := frame_dim.read s2 }, .ok ())

end SoftBufferAllocMgr

/-! ## StdBufferCbMgr -/

/-- The frame information handed to the frame callbacks. -/
structure FrameInfoType where
  acq_frame_nb : Int
  frame_ptr : Nat
  frame_dim : FrameDim
  frame_timestamp : Timestamp
deriving DecidableEq, Repr

/-- The data members of `StdBufferCbMgr`; `m_alloc_mgr` is the state of the pool that the
pointer of that name refers to. -/
structure StdBufferCbMgr where
  m_alloc_mgr : SoftBufferAllocMgr
  m_int_alloc_mgr : Bool
  m_ts_list : List Timestamp
  m_start_ts : Timestamp
  m_fcb_act : Bool
deriving DecidableEq, Repr

namespace StdBufferCbMgr

/-- The constructor `StdBufferCbMgr(alloc_mgr)`: `none` is the null pointer, for which the
manager creates and owns a `SoftBufferAllocMgr`. -/
def new (alloc_mgr : Option SoftBufferAllocMgr) : StdBufferCbMgr :=
  match alloc_mgr with
  | none =>
    { m_alloc_mgr := SoftBufferAllocMgr.new, m_int_alloc_mgr := true, m_ts_list := [],
      m_start_ts := Timestamp.unset, m_fcb_act := false }
  | some pool =>
    { m_alloc_mgr := pool, m_int_alloc_mgr := false, m_ts_list := [],
      m_start_ts := Timestamp.unset, m_fcb_act := false }

/-- The function `getMaxNbBuffers`, delegated to the pool. -/
def getMaxNbBuffers (env : Env) (_s : StdBufferCbMgr) (frame_dim : FrameDim) : Result Int :=
  SoftBufferAllocMgr.getMaxNbBuffers env frame_dim

/-- The accessor `getFrameDim`, delegated to the pool. -/
def getFrameDim (s : StdBufferCbMgr) : FrameDim := s.m_alloc_mgr.getFrameDim

/-- The accessor `getNbBuffers`, delegated to the pool. -/
def getNbBuffers (s : StdBufferCbMgr) : Int := s.m_alloc_mgr.getNbBuffers

/-- The accessor `getBufferPtr`, delegated to the pool. -/
def getBufferPtr (s : StdBufferCbMgr) (buffer_nb : Int) : Result Nat :=
  s.m_alloc_mgr.getBufferPtr buffer_nb

/-- The function `releaseBuffers`: the pool is released and `m_ts_list` is cleared. -/
def releaseBuffers (s : StdBufferCbMgr) : StdBufferCbMgr :=
  { s with m_alloc_mgr := s.m_alloc_mgr.releaseBuffers, m_ts_list := [] }

/-- The loop `for (i ...) m_ts_list.push_back(Timestamp())` with `count` rounds left. -/
def pushTimestamps : Nat → List Timestamp → List Timestamp
  | 0, tl => tl
  | count + 1, tl => pushTimestamps count (tl ++ [Timestamp.unset])

/-- The function `StdBufferCbMgr::allocBuffers(int nb_buffers, const FrameDim& frame_dim)`.
The argument is a reference; `FrameDimRef.member` is the member `m_frame_dim` of the wrapped
pool, which is what the manager's `getFrameDim()` returns. The same reference is handed on
to the pool's `allocBuffers` after `releaseBuffers()`. -/
def allocBuffers (env : Env) (s : StdBufferCbMgr) (nb_buffers : Int)
    (frame_dim : FrameDimRef) : StdBufferCbMgr × Result Unit :=
  let frame_size : Int := (frame_dim.read s.m_alloc_mgr).getMemSize
  if frame_size ≤ 0 then
    (s, .raise (.hw .InvalidValue "Invalid FrameDim"))
  else if frame_dim.read s.m_alloc_mgr = s.getFrameDim ∧ nb_buffers = s.getNbBuffers then
    (s, .ok ())
  else
    let s1 := s.releaseBuffers
    match s1.m_alloc_mgr.allocBuffers env nb_buffers frame_dim with
    | (pool, .raise e) => (releaseBuffers { s1 with m_alloc_mgr := pool }, .raise e)
    | (pool, .undefined) => ({ s1 with m_alloc_mgr := pool }, .undefined)
    | (pool, .ok ()) =>
      let s2 := { s1 with m_alloc_mgr := pool }
      if env.ts_reserve_ok = false then
        (s2.releaseBuffers, .raise .bad_alloc)
      else
        ({ s2 with m_ts_list := pushTimestamps nb_buffers.toNat s2.m_ts_list }, .ok ())

/-- The function `setStartTimestamp`. -/
def setStartTimestamp (s : StdBufferCbMgr) (start_ts : Timestamp) :
    StdBufferCbMgr × Result Unit :=
  if start_ts.isSet = false then
    (s, .raise (.hw .InvalidValue "Invalid start timestamp"))
  else
    ({ s with m_start_ts := start_ts }, .ok ())

/-- The function `setFrameCallbackActive`. -/
def setFrameCallbackActive (s : StdBufferCbMgr) (cb_active : Bool) : StdBufferCbMgr :=
  { s with m_fcb_act := cb_active }

/-- The function `StdBufferCbMgr::newFrameReady`. `now` is what `Timestamp::now()` answers
and `cb` is `HwFrameCallbackGen::newFrameReady`, both declared outside this file. The value
is the manager after the call, the frame infos handed to `cb`, and the returned flag. -/
def newFrameReady (now : Timestamp) (cb : FrameInfoType → Bool) (s : StdBufferCbMgr)
    (acq_frame_nb : Int) : Result (StdBufferCbMgr × List FrameInfoType × Bool) :=
  if s.m_fcb_act = false then
    .ok (s, [], false)
  else if s.getNbBuffers = 0 then
    .undefined
  else
    let buffer_nb : Int := Int.tmod acq_frame_nb s.getNbBuffers
    match s.getBufferPtr buffer_nb with
    | .ok p =>
      let frame_info : FrameInfoType := ⟨acq_frame_nb, p, s.getFrameDim, now⟩
      .ok (s, [frame_info], cb frame_info)
    | .raise e => .raise e
    | .undefined => .undefined

/-- The function `StdBufferCbMgr::getBufferTimestamp`: `m_ts_list[buffer_nb]` is an
unchecked index. -/
def getBufferTimestamp (s : StdBufferCbMgr) (buffer_nb : Int) : Result Timestamp :=
  if 0 ≤ buffer_nb then
    match s.m_ts_list[buffer_nb.toNat]? with
    | some ts => if ts.isSet = false then .ok ts else .ok (ts.sub s.m_start_ts)
    | none => .undefined
  else .undefined

end StdBufferCbMgr

/-! ## Sequences of calls on a manager -/

/-- One call made by the user of a `StdBufferCbMgr`. -/
inductive Call where
  | allocBuffers (env : Env) (nb_buffers : Int) (frame_dim : FrameDimRef)
  | releaseBuffers
  | setStartTimestamp (start_ts : Timestamp)
  | setFrameCallbackActive (cb_active : Bool)
  | newFrameReady (now : Timestamp) (acq_frame_nb : Int)

/-- Whether the call is one that neither allocates nor releases. -/
def Call.keepsBuffers : Call → Bool
  | .allocBuffers _ _ _ => false
  | .releaseBuffers => false
  | _ => true

/-- Whether the frame number of a `newFrameReady` call is not negative. -/
def Call.frameValid : Call → Bool
  | .newFrameReady _ f => decide (0 ≤ f)
  | _ => true

/-- Whether the call is a `newFrameReady(f)` with `f mod n = i`. -/
def Call.targets (n i : Int) : Call → Bool
  | .newFrameReady _ f => decide (f % n = i)
  | _ => false

/-- The manager after one call. An exception is caught by the caller, who goes on with the
object as the call left it; `none` is undefined behaviour, after which nothing is known. -/
def StdBufferCbMgr.step (cb : FrameInfoType → Bool) (s : StdBufferCbMgr) :
    Call → Option StdBufferCbMgr
  | .allocBuffers env n g =>
    match s.allocBuffers env n g with
    | (_, .undefined) => none
    | (s1, _) => some s1
  | .releaseBuffers => some s.releaseBuffers
  | .setStartTimestamp t => some (s.setStartTimestamp t).1
  | .setFrameCallbackActive b => some (s.setFrameCallbackActive b)
  | .newFrameReady now f =>
    match s.newFrameReady now cb f with
    | .ok (s1, _, _) => some s1
    | _ => none

/-- The manager after a sequence of calls. -/
def StdBufferCbMgr.run (cb : FrameInfoType → Bool) :
    StdBufferCbMgr → List Call → Option StdBufferCbMgr
  | s, [] => some s
  | s, c :: cs =>
    match s.step cb c with
    | some s1 => StdBufferCbMgr.run cb s1 cs
    | none => none

/-- The timestamp list runs parallel to the buffer list and holds unset entries only. -/
def TsUnset (s : StdBufferCbMgr) : Prop :=
  s.m_ts_list = List.replicate s.m_alloc_mgr.m_buffer_list.length Timestamp.unset

/-! ## Error kinds of the spec -/

/-- Modelled from the spec: the error kinds that its section on error handling names. -/
inductive ErrorKind where
  | InvalidGeometry
  | InvalidCount
  | InvalidValue
  | OutOfRange
  | Error
deriving DecidableEq, Repr

/-- The kind of an exception of the code: the type given to `LIMA_HW_EXC` keeps its name, and
a `std::bad_alloc` is a failure of the backend, which the spec puts under `Error`. -/
def Exception.kind : Exception → ErrorKind
  | .hw .InvalidValue _ => .InvalidValue
  | .hw .Error _ => .Error
  | .bad_alloc => .Error

/-- Whether a call ended by raising an exception of the given kind. -/
def Result.failsWith {α : Type} (r : Result α) (k : ErrorKind) : Prop :=
  ∃ e, r = .raise e ∧ e.kind = k

/-! ## Sequences of calls on a pool -/

/-- The total system memory in bytes that `sysinfo` reports. -/
def SysInfo.totalMemory (si : SysInfo) : Nat := si.totalram * si.mem_unit

/-- One call made by the user of a `SoftBufferAllocMgr`. -/
inductive PoolCall where
  | allocBuffers (env : Env) (nb_buffers : Int) (frame_dim : FrameDimRef)
  | releaseBuffers

/-- Whether the machine reports a total memory of `M` bytes during the call. -/
def PoolCall.underMemory (M : Nat) : PoolCall → Prop
  | .allocBuffers env _ _ => ∃ si, env.sysinfo = some si ∧ si.totalMemory = M
  | .releaseBuffers => True

/-- The pool after one call. An exception is caught by the caller, who goes on with the
object as the call left it; `none` is undefined behaviour. -/
def SoftBufferAllocMgr.step (s : SoftBufferAllocMgr) : PoolCall → Option SoftBufferAllocMgr
  | .allocBuffers env n g =>
    match s.allocBuffers env n g with
    | (_, .undefined) => none
    | (s1, _) => some s1
  | .releaseBuffers => some s.releaseBuffers

/-- The pool after a sequence of calls. -/
def SoftBufferAllocMgr.run : SoftBufferAllocMgr → List PoolCall → Option SoftBufferAllocMgr
  | s, [] => some s
  | s, c :: cs =>
    match s.step c with
    | some s1 => SoftBufferAllocMgr.run s1 cs
    | none => none

/-- The number of bytes of the buffers that the pool holds. -/
def SoftBufferAllocMgr.heldBytes (s : SoftBufferAllocMgr) : Int :=
  (s.m_buffer_list.map (fun b => b.size)).sum

/-- The pool is empty, or it holds at least one buffer and every buffer has the byte size
of the geometry. -/
def PoolShape (s : SoftBufferAllocMgr) : Prop :=
  (s.getFrameDim = FrameDim.unset ∧ s.getNbBuffers = 0) ∨
  (1 ≤ s.getNbBuffers ∧ ∀ b ∈ s.m_buffer_list, b.size = s.getFrameDim.getMemSize)

/-- The pool is the empty one, or it holds buffers of a positive byte size whose number is
within the budget of a machine that reports a total memory of `M` bytes. -/
def PoolWithinBudget (M : Nat) (s : SoftBufferAllocMgr) : Prop :=
  s = SoftBufferAllocMgr.new ∨
  (0 < s.m_frame_dim.getMemSize ∧ ∃ env si m, env.sysinfo = some si ∧ si.totalMemory = M ∧
    SoftBufferAllocMgr.getMaxNbBuffers env s.m_frame_dim = .ok m ∧
    1 ≤ s.getNbBuffers ∧ s.getNbBuffers ≤ m)

/-! ## Sample inputs -/

/-- A machine with 16 KiB of memory on which every acquisition succeeds. -/
def sampleEnv : Env :=
  { sysinfo := some ⟨16, 1024⟩, reserve_ok := true, new_char := fun i => some (4096 + 1024 * i),
    ts_reserve_ok := true }

/-- The machine of `sampleEnv` on which the acquisition of buffer 1 fails. -/
def failingEnv : Env :=
  { sysinfo := some ⟨16, 1024⟩, reserve_ok := true,
    new_char := fun i => if i = 1 then none else some (4096 + 1024 * i),
    ts_reserve_ok := true }

/-- The machine of `sampleEnv` on which `m_ts_list.reserve` fails. -/
def tsFailingEnv : Env :=
  { sysinfo := some ⟨16, 1024⟩, reserve_ok := true, new_char := fun i => some (4096 + 1024 * i),
    ts_reserve_ok := false }

/-- A geometry of 1024 bytes per frame. -/
def sampleDim : FrameDim := ⟨1, 1024⟩

/-- A geometry of zero bytes per frame that is not the default one. -/
def emptyDim : FrameDim := ⟨2, 0⟩

/-- A pool holding two buffers of `sampleDim`. -/
def samplePool : SoftBufferAllocMgr := ⟨sampleDim, [⟨100, 1024⟩, ⟨2000, 1024⟩]⟩

/-- A manager over `samplePool` with two unset timestamps. -/
def sampleMgr : StdBufferCbMgr :=
  { m_alloc_mgr := samplePool, m_int_alloc_mgr := true,
    m_ts_list := [Timestamp.unset, Timestamp.unset], m_start_ts := Timestamp.unset,
    m_fcb_act := true }

/-- A manager that owns its pool, after `allocBuffers(4, sampleDim)`,
`setFrameCallbackActive(true)` and `setStartTimestamp` at the instant 10. -/
def readyMgr : StdBufferCbMgr :=
  ((((StdBufferCbMgr.new none).allocBuffers sampleEnv 4 (.obj sampleDim)).1.setFrameCallbackActive
    true).setStartTimestamp (Timestamp.ofTime 10)).1

/-- A frame callback that accepts every frame. -/
def acceptAll : FrameInfoType → Bool := fun _ => true

/-- The scenario of the spec after the allocation: callbacks are switched on and the frames
0, 1 and 4 arrive. -/
def scenarioCalls : List Call :=
  [.setFrameCallbackActive true, .newFrameReady (Timestamp.ofTime 11) 0,
   .newFrameReady (Timestamp.ofTime 12) 1, .newFrameReady (Timestamp.ofTime 15) 4]

/-- A machine that reports 2^63 bytes of memory, in units of one byte. -/
def hugeEnv : Env :=
  { sysinfo := some ⟨9223372036854775808, 1⟩, reserve_ok := true,
    new_char := fun i => some (4096 + 1024 * i), ts_reserve_ok := true }

/-- A manager constructed over the borrowed pool `samplePool`, which holds two buffers. -/
def borrowedMgr : StdBufferCbMgr := StdBufferCbMgr.new (some samplePool)

/-- The calls after the allocation on the borrowed pool: callbacks are switched on and
frame 0 arrives, which targets slot 0 of two. -/
def borrowedCalls : List Call :=
  [.setFrameCallbackActive true, .newFrameReady (Timestamp.ofTime 11) 0]

/-- The pool after `allocBuffers(3, sampleDim)` from the empty pool on `sampleEnv`. -/
def threeBufferPool : SoftBufferAllocMgr :=
  ⟨sampleDim, [⟨4096, 1024⟩, ⟨5120, 1024⟩, ⟨6144, 1024⟩]⟩

/-- A sequence of calls on a pool: an allocation that succeeds, a call on the pool's own
geometry that raises, an allocation that is refused for its count, a release, an allocation
during which an acquisition fails, and an allocation that succeeds. -/
def poolCalls : List PoolCall :=
  [.allocBuffers sampleEnv 3 (.obj sampleDim), .allocBuffers sampleEnv 5 .member,
   .allocBuffers sampleEnv 13 (.obj sampleDim), .releaseBuffers,
   .allocBuffers failingEnv 2 (.obj sampleDim), .allocBuffers sampleEnv 2 (.obj sampleDim)]

/-! ## Lemmas on the two loops -/

theorem pushBuffers_ok (env : Env) (fs : Int) (count : Nat) :
    ∀ (i : Nat) (bl : List HeapBlock),
      (∀ j, j < count → (env.new_char (i + j)).isSome = true) →
      ∃ bl1, SoftBufferAllocMgr.pushBuffers env fs count i bl = (bl ++ bl1, none) ∧
        bl1.length = count ∧ ∀ b ∈ bl1, b.size = fs := by
  induction count with
  | zero =>
    intro i bl _
    exact ⟨[], by simp [SoftBufferAllocMgr.pushBuffers], rfl, by simp⟩
  | succ c ih =>
    intro i bl h
    have h0 := h 0 (Nat.succ_pos c)
    rw [Nat.add_zero, Option.isSome_iff_exists] at h0
    obtain ⟨p, hp⟩ := h0
    have hrest : ∀ j, j < c → (env.new_char (i + 1 + j)).isSome = true := by
      intro j hj
      have := h (j + 1) (Nat.succ_lt_succ hj)
      rwa [show i + (j + 1) = i + 1 + j by omega] at this
    obtain ⟨bl1, h1, h2, h3⟩ := ih (i + 1) (bl ++ [⟨p, fs⟩]) hrest
    refine ⟨⟨p, fs⟩ :: bl1, ?_, by simp [h2], ?_⟩
    · simp only [SoftBufferAllocMgr.pushBuffers, hp, h1]
      simp
    · intro b hb
      rcases List.mem_cons.mp hb with rfl | hb
      · rfl
      · exact h3 b hb

theorem pushBuffers_fail (env : Env) (fs : Int) (count : Nat) :
    ∀ (i : Nat) (bl : List HeapBlock) (k : Nat), k < count → env.new_char (i + k) = none →
      (SoftBufferAllocMgr.pushBuffers env fs count i bl).2 = some Exception.bad_alloc := by
  induction count with
  | zero => intro i bl k hk; omega
  | succ c ih =>
    intro i bl k hk hnone
    cases hp : env.new_char i with
    | none => simp [SoftBufferAllocMgr.pushBuffers, hp]
    | some p =>
      simp only [SoftBufferAllocMgr.pushBuffers, hp]
      cases k with
      | zero => rw [Nat.add_zero, hp] at hnone; cases hnone
      | succ k1 =>
        apply ih (i + 1) _ k1 (by omega)
        rwa [show i + 1 + k1 = i + (k1 + 1) by omega]

theorem pushTimestamps_eq (count : Nat) :
    ∀ tl : List Timestamp,
      StdBufferCbMgr.pushTimestamps count tl = tl ++ List.replicate count Timestamp.unset := by
  induction count with
  | zero => intro tl; simp [StdBufferCbMgr.pushTimestamps]
  | succ c ih =>
    intro tl
    rw [StdBufferCbMgr.pushTimestamps, ih, List.replicate_succ, List.append_assoc]
    rfl

/-! ## The paths through `SoftBufferAllocMgr::allocBuffers` -/

theorem soft_alloc_invalid_dim (env : Env) (s : SoftBufferAllocMgr) (n : Int) (g : FrameDim)
    (hsize : g.getMemSize ≤ 0) :
    s.allocBuffers env n (.obj g) = (s, .raise (.hw .InvalidValue "Invalid FrameDim")) := by
  simp [SoftBufferAllocMgr.allocBuffers, FrameDimRef.read, hsize]

theorem soft_alloc_same (env : Env) (s : SoftBufferAllocMgr) (n : Int) (g : FrameDim)
    (hsize : 0 < g.getMemSize) (hg : g = s.m_frame_dim) (hn : n = s.getNbBuffers) :
    s.allocBuffers env n (.obj g) = (s, .ok ()) := by
  have h : ¬ g.getMemSize ≤ 0 := not_le.mpr hsize
  simp only [SoftBufferAllocMgr.allocBuffers, FrameDimRef.read, h, if_false]
  rw [if_pos ⟨hg, hn⟩]

theorem soft_alloc_fresh (env : Env) (s : SoftBufferAllocMgr) (n m : Int) (g : FrameDim)
    (hsize : 0 < g.getMemSize) (hdiff : ¬ (g = s.m_frame_dim ∧ n = s.getNbBuffers))
    (hmax : SoftBufferAllocMgr.getMaxNbBuffers env g = .ok m) (hn1 : 1 ≤ n) (hn2 : n ≤ m)
    (hres : env.reserve_ok = true)
    (hnew : ∀ j : Nat, (j : Int) < n → (env.new_char j).isSome = true) :
    ∃ bl, s.allocBuffers env n (.obj g) = (⟨g, bl⟩, .ok ()) ∧ (bl.length : Int) = n ∧
      ∀ b ∈ bl, b.size = g.getMemSize := by
  have h : ¬ g.getMemSize ≤ 0 := not_le.mpr hsize
  have hnew1 : ∀ j, j < n.toNat → (env.new_char (0 + j)).isSome = true := by
    intro j hj
    rw [Nat.zero_add]
    exact hnew j (by omega)
  obtain ⟨bl, h1, h2, h3⟩ := pushBuffers_ok env g.getMemSize n.toNat 0 [] hnew1
  refine ⟨bl, ?_, by omega, h3⟩
  have hrange : ¬ (n < 1 ∨ n > m) := by omega
  simp only [SoftBufferAllocMgr.allocBuffers, FrameDimRef.read, h, if_false, hdiff, hmax, hrange, hres,
    SoftBufferAllocMgr.releaseBuffers, h1]
  simp

theorem soft_alloc_count (env : Env) (s : SoftBufferAllocMgr) (n m : Int) (g : FrameDim)
    (hsize : 0 < g.getMemSize) (hdiff : ¬ (g = s.m_frame_dim ∧ n = s.getNbBuffers))
    (hmax : SoftBufferAllocMgr.getMaxNbBuffers env g = .ok m) (hn : n < 1 ∨ m < n) :
    s.allocBuffers env n (.obj g) =
      (SoftBufferAllocMgr.new, .raise (.hw .InvalidValue "Invalid number of buffers")) := by
  have h : ¬ g.getMemSize ≤ 0 := not_le.mpr hsize
  have hrange : n < 1 ∨ n > m := hn
  simp only [SoftBufferAllocMgr.allocBuffers, FrameDimRef.read, h, if_false, hdiff, hmax, hrange, if_true,
    SoftBufferAllocMgr.releaseBuffers, SoftBufferAllocMgr.new]

theorem soft_alloc_acquire_fail (env : Env) (s : SoftBufferAllocMgr) (n m : Int) (g : FrameDim)
    (hsize : 0 < g.getMemSize) (hdiff : ¬ (g = s.m_frame_dim ∧ n = s.getNbBuffers))
    (hmax : SoftBufferAllocMgr.getMaxNbBuffers env g = .ok m) (hn1 : 1 ≤ n) (hn2 : n ≤ m)
    (hfail : env.reserve_ok = false ∨ ∃ k : Nat, (k : Int) < n ∧ env.new_char k = none) :
    s.allocBuffers env n (.obj g) = (SoftBufferAllocMgr.new, .raise .bad_alloc) := by
  have h : ¬ g.getMemSize ≤ 0 := not_le.mpr hsize
  have hrange : ¬ (n < 1 ∨ n > m) := by omega
  by_cases hres : env.reserve_ok = false
  · simp only [SoftBufferAllocMgr.allocBuffers, FrameDimRef.read, h, if_false, hdiff, hmax, hrange, hres, if_true,
      SoftBufferAllocMgr.releaseBuffers, SoftBufferAllocMgr.new]
  · rcases hfail with hf | ⟨k, hk, hnone⟩
    · exact absurd hf hres
    · have hp := pushBuffers_fail env g.getMemSize n.toNat 0 [] k (by omega)
        (by rwa [Nat.zero_add])
      simp only [SoftBufferAllocMgr.allocBuffers, FrameDimRef.read, h, if_false, hdiff, hmax, hrange, hres,
        SoftBufferAllocMgr.releaseBuffers, SoftBufferAllocMgr.new]
      generalize SoftBufferAllocMgr.pushBuffers env g.getMemSize n.toNat 0 [] = r at hp
      obtain ⟨bl, e⟩ := r
      simp only at hp
      subst hp
      rfl

theorem pushBuffers_none_length (env : Env) (fs : Int) (count : Nat) :
    ∀ (i : Nat) (bl bl1 : List HeapBlock),
      SoftBufferAllocMgr.pushBuffers env fs count i bl = (bl1, none) →
      bl1.length = bl.length + count ∧ ((∀ b ∈ bl, b.size = fs) → ∀ b ∈ bl1, b.size = fs) := by
  induction count with
  | zero =>
    intro i bl bl1 h
    simp only [SoftBufferAllocMgr.pushBuffers, Prod.mk.injEq, and_true] at h
    subst h
    exact ⟨rfl, fun hb => hb⟩
  | succ c ih =>
    intro i bl bl1 h
    cases hp : env.new_char i with
    | none => simp [SoftBufferAllocMgr.pushBuffers, hp] at h
    | some p =>
      simp only [SoftBufferAllocMgr.pushBuffers, hp] at h
      obtain ⟨h1, h2⟩ := ih (i + 1) _ bl1 h
      refine ⟨by rw [h1, List.length_append]; simp; omega, fun hb => h2 ?_⟩
      intro b hmem
      rcases List.mem_append.mp hmem with hm | hm
      · exact hb b hm
      · rw [List.mem_singleton] at hm
        rw [hm]

theorem getSystemMem_ne_undefined (env : Env) (mem_unit : Int) (h : 0 < mem_unit) :
    SoftBufferAllocMgr.getSystemMem env mem_unit ≠ .undefined := by
  have h1 : ¬ mem_unit < 0 := by omega
  have h2 : ¬ mem_unit = 0 := by omega
  unfold SoftBufferAllocMgr.getSystemMem
  rw [if_neg h1]
  cases env.sysinfo with
  | none => simp
  | some si =>
    have h3 : ¬ mem_unit = -1 := by omega
    simp only [h2, h3, if_false, and_false, or_false]
    split <;> simp

theorem getMaxNbBuffers_ne_undefined (env : Env) (g : FrameDim) :
    SoftBufferAllocMgr.getMaxNbBuffers env g ≠ .undefined := by
  unfold SoftBufferAllocMgr.getMaxNbBuffers
  by_cases h : g.getMemSize ≤ 0
  · simp [h]
  · simp only [h, if_false]
    have hne := getSystemMem_ne_undefined env g.getMemSize (by omega)
    cases hs : SoftBufferAllocMgr.getSystemMem env g.getMemSize with
    | ok v => simp
    | raise e => simp
    | undefined => exact absurd hs hne

/-- Every call of `SoftBufferAllocMgr::allocBuffers` on an object takes one of four paths. -/
theorem soft_alloc_cases_obj (env : Env) (s : SoftBufferAllocMgr) (n : Int) (g : FrameDim) :
    (g.getMemSize ≤ 0 ∧
      s.allocBuffers env n (.obj g) = (s, .raise (.hw .InvalidValue "Invalid FrameDim"))) ∨
    (0 < g.getMemSize ∧ (g = s.m_frame_dim ∧ n = s.getNbBuffers) ∧
      s.allocBuffers env n (.obj g) = (s, .ok ())) ∨
    (0 < g.getMemSize ∧ ¬ (g = s.m_frame_dim ∧ n = s.getNbBuffers) ∧
      ∃ e, s.allocBuffers env n (.obj g) = (SoftBufferAllocMgr.new, .raise e)) ∨
    (0 < g.getMemSize ∧ ¬ (g = s.m_frame_dim ∧ n = s.getNbBuffers) ∧
      ∃ bl m, SoftBufferAllocMgr.getMaxNbBuffers env g = .ok m ∧ 1 ≤ n ∧ n ≤ m ∧
        s.allocBuffers env n (.obj g) = (⟨g, bl⟩, .ok ()) ∧ (bl.length : Int) = n ∧
        ∀ b ∈ bl, b.size = g.getMemSize) := by
  by_cases hsize : g.getMemSize ≤ 0
  · exact Or.inl ⟨hsize, soft_alloc_invalid_dim env s n g hsize⟩
  have hpos : 0 < g.getMemSize := by omega
  by_cases hsame : g = s.m_frame_dim ∧ n = s.getNbBuffers
  · exact Or.inr (Or.inl ⟨hpos, hsame, soft_alloc_same env s n g hpos hsame.1 hsame.2⟩)
  cases hmax : SoftBufferAllocMgr.getMaxNbBuffers env g with
  | undefined => exact absurd hmax (getMaxNbBuffers_ne_undefined env g)
  | raise e =>
    refine Or.inr (Or.inr (Or.inl ⟨hpos, hsame, e, ?_⟩))
    simp only [SoftBufferAllocMgr.allocBuffers, FrameDimRef.read, hsize, if_false, hsame, hmax,
      SoftBufferAllocMgr.releaseBuffers, SoftBufferAllocMgr.new]
  | ok m =>
    by_cases hrange : n < 1 ∨ m < n
    · exact Or.inr (Or.inr (Or.inl ⟨hpos, hsame, _, soft_alloc_count env s n m g hpos hsame hmax hrange⟩))
    have hn1 : 1 ≤ n := by omega
    have hn2 : n ≤ m := by omega
    by_cases hres : env.reserve_ok = false
    · exact Or.inr (Or.inr (Or.inl ⟨hpos, hsame, _,
        soft_alloc_acquire_fail env s n m g hpos hsame hmax hn1 hn2 (Or.inl hres)⟩))
    have hrange1 : ¬ (n < 1 ∨ n > m) := hrange
    cases hp : SoftBufferAllocMgr.pushBuffers env g.getMemSize n.toNat 0 [] with
    | mk bl oe =>
      cases oe with
      | some e =>
        refine Or.inr (Or.inr (Or.inl ⟨hpos, hsame, e, ?_⟩))
        simp only [SoftBufferAllocMgr.allocBuffers, FrameDimRef.read, hsize, if_false, hsame, hmax, hrange1, hres,
          SoftBufferAllocMgr.releaseBuffers, SoftBufferAllocMgr.new, hp]
        simp
      | none =>
        obtain ⟨hlen, hsz⟩ := pushBuffers_none_length env g.getMemSize n.toNat 0 [] bl hp
        refine Or.inr (Or.inr (Or.inr ⟨hpos, hsame, bl, m, rfl, hn1, hn2, ?_, ?_, ?_⟩))
        · simp only [SoftBufferAllocMgr.allocBuffers, FrameDimRef.read, hsize, if_false, hsame, hmax, hrange1, hres,
            SoftBufferAllocMgr.releaseBuffers, hp]
          simp
        · rw [hlen]; simp; omega
        · exact hsz (by simp)

/-! ## Calls on the pool's own geometry -/

theorem soft_alloc_member_invalid (env : Env) (s : SoftBufferAllocMgr) (n : Int)
    (hsize : s.m_frame_dim.getMemSize ≤ 0) :
    s.allocBuffers env n .member = (s, .raise (.hw .InvalidValue "Invalid FrameDim")) := by
  simp [SoftBufferAllocMgr.allocBuffers, FrameDimRef.read, hsize]

theorem soft_alloc_member_same (env : Env) (s : SoftBufferAllocMgr) (n : Int)
    (hsize : 0 < s.m_frame_dim.getMemSize) (hn : n = s.getNbBuffers) :
    s.allocBuffers env n .member = (s, .ok ()) := by
  have h : ¬ s.m_frame_dim.getMemSize ≤ 0 := not_le.mpr hsize
  simp only [SoftBufferAllocMgr.allocBuffers, FrameDimRef.read, h, if_false, true_and]
  rw [if_pos hn]

/-- With `allocBuffers(n, getFrameDim())` and a count other than the current one,
`releaseBuffers()` resets the geometry that the argument refers to, and
`getMaxNbBuffers(frame_dim)` then raises for a geometry of zero bytes. -/
theorem soft_alloc_member_raise (env : Env) (s : SoftBufferAllocMgr) (n : Int)
    (hsize : 0 < s.m_frame_dim.getMemSize) (hn : n ≠ s.getNbBuffers) :
    s.allocBuffers env n .member =
      (SoftBufferAllocMgr.new, .raise (.hw .InvalidValue "Invalid FrameDim")) := by
  have h : ¬ s.m_frame_dim.getMemSize ≤ 0 := not_le.mpr hsize
  have hmax : SoftBufferAllocMgr.getMaxNbBuffers env FrameDim.unset =
      .raise (.hw .InvalidValue "Invalid FrameDim") := by
    simp [SoftBufferAllocMgr.getMaxNbBuffers, FrameDim.unset, FrameDim.getMemSize]
  simp only [SoftBufferAllocMgr.allocBuffers, FrameDimRef.read, h, if_false, true_and, hn,
    SoftBufferAllocMgr.releaseBuffers, hmax, SoftBufferAllocMgr.new]

/-- Every call of `SoftBufferAllocMgr::allocBuffers` takes one of four paths; `r.read s` is
the geometry that the argument has on entry. -/
theorem soft_alloc_cases (env : Env) (s : SoftBufferAllocMgr) (n : Int) (r : FrameDimRef) :
    ((r.read s).getMemSize ≤ 0 ∧
      s.allocBuffers env n r = (s, .raise (.hw .InvalidValue "Invalid FrameDim"))) ∨
    (0 < (r.read s).getMemSize ∧ (r.read s = s.m_frame_dim ∧ n = s.getNbBuffers) ∧
      s.allocBuffers env n r = (s, .ok ())) ∨
    (0 < (r.read s).getMemSize ∧ ¬ (r.read s = s.m_frame_dim ∧ n = s.getNbBuffers) ∧
      ∃ e, s.allocBuffers env n r = (SoftBufferAllocMgr.new, .raise e)) ∨
    (0 < (r.read s).getMemSize ∧ ¬ (r.read s = s.m_frame_dim ∧ n = s.getNbBuffers) ∧
      ∃ bl m, SoftBufferAllocMgr.getMaxNbBuffers env (r.read s) = .ok m ∧ 1 ≤ n ∧ n ≤ m ∧
        s.allocBuffers env n r = (⟨r.read s, bl⟩, .ok ()) ∧ (bl.length : Int) = n ∧
        ∀ b ∈ bl, b.size = (r.read s).getMemSize) := by
  cases r with
  | obj g => exact soft_alloc_cases_obj env s n g
  | member =>
    by_cases hsize : s.m_frame_dim.getMemSize ≤ 0
    · exact Or.inl ⟨hsize, soft_alloc_member_invalid env s n hsize⟩
    have hpos : 0 < s.m_frame_dim.getMemSize := by omega
    by_cases hn : n = s.getNbBuffers
    · exact Or.inr (Or.inl ⟨hpos, ⟨rfl, hn⟩, soft_alloc_member_same env s n hpos hn⟩)
    · exact Or.inr (Or.inr (Or.inl ⟨hpos, fun hc => hn hc.2, _,
        soft_alloc_member_raise env s n hpos hn⟩))

/-! ## The paths through `StdBufferCbMgr::allocBuffers` -/

theorem std_alloc_invalid_dim (env : Env) (s : StdBufferCbMgr) (n : Int) (g : FrameDim)
    (hsize : g.getMemSize ≤ 0) :
    s.allocBuffers env n (.obj g) = (s, .raise (.hw .InvalidValue "Invalid FrameDim")) := by
  simp [StdBufferCbMgr.allocBuffers, FrameDimRef.read, hsize]

theorem std_alloc_same (env : Env) (s : StdBufferCbMgr) (n : Int) (g : FrameDim)
    (hsize : 0 < g.getMemSize) (hg : g = s.getFrameDim) (hn : n = s.getNbBuffers) :
    s.allocBuffers env n (.obj g) = (s, .ok ()) := by
  have h : ¬ g.getMemSize ≤ 0 := not_le.mpr hsize
  simp only [StdBufferCbMgr.allocBuffers, FrameDimRef.read, h, if_false]
  rw [if_pos ⟨hg, hn⟩]

/-- Every call of `StdBufferCbMgr::allocBuffers` on an object takes one of four paths. -/
theorem std_alloc_cases_obj (env : Env) (s : StdBufferCbMgr) (n : Int) (g : FrameDim) :
    (g.getMemSize ≤ 0 ∧
      s.allocBuffers env n (.obj g) = (s, .raise (.hw .InvalidValue "Invalid FrameDim"))) ∨
    (0 < g.getMemSize ∧ (g = s.getFrameDim ∧ n = s.getNbBuffers) ∧
      s.allocBuffers env n (.obj g) = (s, .ok ())) ∨
    (0 < g.getMemSize ∧ ¬ (g = s.getFrameDim ∧ n = s.getNbBuffers) ∧
      ∃ e, s.allocBuffers env n (.obj g) = (s.releaseBuffers, .raise e) ∧
        ((SoftBufferAllocMgr.new.allocBuffers env n (.obj g)).2 = .raise e ∨
          (∃ pool, SoftBufferAllocMgr.new.allocBuffers env n (.obj g) = (pool, .ok ()) ∧
            env.ts_reserve_ok = false ∧ e = .bad_alloc))) ∨
    (0 < g.getMemSize ∧ ¬ (g = s.getFrameDim ∧ n = s.getNbBuffers) ∧
      ∃ bl m, SoftBufferAllocMgr.getMaxNbBuffers env g = .ok m ∧ 1 ≤ n ∧ n ≤ m ∧ env.ts_reserve_ok = true ∧
        SoftBufferAllocMgr.new.allocBuffers env n (.obj g) = (⟨g, bl⟩, .ok ()) ∧
        s.allocBuffers env n (.obj g) =
          ({ s with m_alloc_mgr := ⟨g, bl⟩,
                    m_ts_list := List.replicate n.toNat Timestamp.unset }, .ok ()) ∧
        (bl.length : Int) = n ∧ ∀ b ∈ bl, b.size = g.getMemSize) := by
  by_cases hsize : g.getMemSize ≤ 0
  · exact Or.inl ⟨hsize, std_alloc_invalid_dim env s n g hsize⟩
  have hpos : 0 < g.getMemSize := by omega
  by_cases hsame : g = s.getFrameDim ∧ n = s.getNbBuffers
  · exact Or.inr (Or.inl ⟨hpos, hsame, std_alloc_same env s n g hpos hsame.1 hsame.2⟩)
  have hunfold : s.allocBuffers env n (.obj g) =
      (match SoftBufferAllocMgr.new.allocBuffers env n (.obj g) with
        | (pool, .raise e) =>
          (StdBufferCbMgr.releaseBuffers { s.releaseBuffers with m_alloc_mgr := pool }, .raise e)
        | (pool, .undefined) => ({ s.releaseBuffers with m_alloc_mgr := pool }, .undefined)
        | (pool, .ok ()) =>
          if env.ts_reserve_ok = false then
            (StdBufferCbMgr.releaseBuffers { s.releaseBuffers with m_alloc_mgr := pool },
              .raise .bad_alloc)
          else
            ({ s.releaseBuffers with
                m_alloc_mgr := pool,
                m_ts_list := StdBufferCbMgr.pushTimestamps n.toNat [] }, .ok ())) := by
    simp only [StdBufferCbMgr.allocBuffers, FrameDimRef.read, hsize, if_false, hsame]
    rfl
  rw [hunfold]
  rcases soft_alloc_cases_obj env SoftBufferAllocMgr.new n g with
    ⟨h0, _⟩ | ⟨_, ⟨hg, _⟩, _⟩ | ⟨_, _, e, he⟩ | ⟨_, _, bl, m, hmax, hn1, hn2, hok, hlen, hsz⟩
  · exact absurd h0 hsize
  · rw [hg] at hpos
    exact absurd hpos (by decide)
  · refine Or.inr (Or.inr (Or.inl ⟨hpos, hsame, e, ?_, Or.inl (by rw [he])⟩))
    rw [he]
    rfl
  · rw [hok]
    by_cases hts : env.ts_reserve_ok = false
    · refine Or.inr (Or.inr (Or.inl ⟨hpos, hsame, .bad_alloc, ?_, Or.inr ⟨_, rfl, hts, rfl⟩⟩))
      simp only [hts, if_true]
      rfl
    · refine Or.inr (Or.inr (Or.inr ⟨hpos, hsame, bl, m, hmax, hn1, hn2, by simpa using hts,
        rfl, ?_, hlen, hsz⟩))
      simp only [hts, if_false, pushTimestamps_eq, List.nil_append]
      rfl

theorem std_alloc_member_invalid (env : Env) (s : StdBufferCbMgr) (n : Int)
    (hsize : s.getFrameDim.getMemSize ≤ 0) :
    s.allocBuffers env n .member = (s, .raise (.hw .InvalidValue "Invalid FrameDim")) := by
  have h : s.m_alloc_mgr.m_frame_dim.getMemSize ≤ 0 := hsize
  simp [StdBufferCbMgr.allocBuffers, FrameDimRef.read, h]

theorem std_alloc_member_same (env : Env) (s : StdBufferCbMgr) (n : Int)
    (hsize : 0 < s.getFrameDim.getMemSize) (hn : n = s.getNbBuffers) :
    s.allocBuffers env n .member = (s, .ok ()) := by
  have h : ¬ s.m_alloc_mgr.m_frame_dim.getMemSize ≤ 0 := not_le.mpr hsize
  simp only [StdBufferCbMgr.allocBuffers, FrameDimRef.read, h, if_false]
  rw [if_pos ⟨rfl, hn⟩]

/-- With `allocBuffers(n, getFrameDim())` on the manager and a count other than the current
one, the manager's `releaseBuffers()` resets the geometry that the argument refers to, the
pool's `allocBuffers` raises for a geometry of zero bytes, and the manager releases again. -/
theorem std_alloc_member_raise (env : Env) (s : StdBufferCbMgr) (n : Int)
    (hsize : 0 < s.getFrameDim.getMemSize) (hn : n ≠ s.getNbBuffers) :
    s.allocBuffers env n .member =
      (s.releaseBuffers, .raise (.hw .InvalidValue "Invalid FrameDim")) := by
  have h : ¬ s.m_alloc_mgr.m_frame_dim.getMemSize ≤ 0 := not_le.mpr hsize
  have hdiff : ¬ (s.m_alloc_mgr.m_frame_dim = s.getFrameDim ∧ n = s.getNbBuffers) :=
    fun hc => hn hc.2
  have hpool : (StdBufferCbMgr.releaseBuffers s).m_alloc_mgr.allocBuffers env n .member =
      (SoftBufferAllocMgr.new, .raise (.hw .InvalidValue "Invalid FrameDim")) :=
    soft_alloc_member_invalid env SoftBufferAllocMgr.new n (by decide)
  simp only [StdBufferCbMgr.allocBuffers, FrameDimRef.read, h, if_false, hdiff, hpool]
  rfl

/-- Every call of `StdBufferCbMgr::allocBuffers` takes one of four paths; `r.read s.m_alloc_mgr`
is the geometry that the argument has on entry. -/
theorem std_alloc_cases (env : Env) (s : StdBufferCbMgr) (n : Int) (r : FrameDimRef) :
    ((r.read s.m_alloc_mgr).getMemSize ≤ 0 ∧
      s.allocBuffers env n r = (s, .raise (.hw .InvalidValue "Invalid FrameDim"))) ∨
    (0 < (r.read s.m_alloc_mgr).getMemSize ∧
      (r.read s.m_alloc_mgr = s.getFrameDim ∧ n = s.getNbBuffers) ∧
      s.allocBuffers env n r = (s, .ok ())) ∨
    (0 < (r.read s.m_alloc_mgr).getMemSize ∧
      ¬ (r.read s.m_alloc_mgr = s.getFrameDim ∧ n = s.getNbBuffers) ∧
      ∃ e, s.allocBuffers env n r = (s.releaseBuffers, .raise e)) ∨
    (0 < (r.read s.m_alloc_mgr).getMemSize ∧
      ¬ (r.read s.m_alloc_mgr = s.getFrameDim ∧ n = s.getNbBuffers) ∧
      ∃ bl m, SoftBufferAllocMgr.getMaxNbBuffers env (r.read s.m_alloc_mgr) = .ok m ∧
        1 ≤ n ∧ n ≤ m ∧ env.ts_reserve_ok = true ∧
        s.allocBuffers env n r =
          ({ s with m_alloc_mgr := ⟨r.read s.m_alloc_mgr, bl⟩,
                    m_ts_list := List.replicate n.toNat Timestamp.unset }, .ok ()) ∧
        (bl.length : Int) = n ∧ ∀ b ∈ bl, b.size = (r.read s.m_alloc_mgr).getMemSize) := by
  cases r with
  | obj g =>
    rcases std_alloc_cases_obj env s n g with
      h | h | ⟨h1, h2, e, h3, _⟩ | ⟨h1, h2, bl, m, h3, h4, h5, h6, _, h7, h8, h9⟩
    · exact Or.inl h
    · exact Or.inr (Or.inl h)
    · exact Or.inr (Or.inr (Or.inl ⟨h1, h2, e, h3⟩))
    · exact Or.inr (Or.inr (Or.inr ⟨h1, h2, bl, m, h3, h4, h5, h6, h7, h8, h9⟩))
  | member =>
    by_cases hsize : s.getFrameDim.getMemSize ≤ 0
    · exact Or.inl ⟨hsize, std_alloc_member_invalid env s n hsize⟩
    have hpos : 0 < s.getFrameDim.getMemSize := by omega
    by_cases hn : n = s.getNbBuffers
    · exact Or.inr (Or.inl ⟨hpos, ⟨rfl, hn⟩, std_alloc_member_same env s n hpos hn⟩)
    · exact Or.inr (Or.inr (Or.inl ⟨hpos, fun hc => hn hc.2, _,
        std_alloc_member_raise env s n hpos hn⟩))

theorem soft_alloc_invalid_ref (env : Env) (s : SoftBufferAllocMgr) (n : Int) (r : FrameDimRef)
    (hsize : (r.read s).getMemSize ≤ 0) :
    s.allocBuffers env n r = (s, .raise (.hw .InvalidValue "Invalid FrameDim")) := by
  cases r with
  | obj g => exact soft_alloc_invalid_dim env s n g hsize
  | member => exact soft_alloc_member_invalid env s n hsize

theorem soft_alloc_same_ref (env : Env) (s : SoftBufferAllocMgr) (n : Int) (r : FrameDimRef)
    (hsize : 0 < (r.read s).getMemSize) (hg : r.read s = s.m_frame_dim)
    (hn : n = s.getNbBuffers) : s.allocBuffers env n r = (s, .ok ()) := by
  cases r with
  | obj g => exact soft_alloc_same env s n g hsize hg hn
  | member => exact soft_alloc_member_same env s n hsize hn

theorem std_alloc_invalid_ref (env : Env) (s : StdBufferCbMgr) (n : Int) (r : FrameDimRef)
    (hsize : (r.read s.m_alloc_mgr).getMemSize ≤ 0) :
    s.allocBuffers env n r = (s, .raise (.hw .InvalidValue "Invalid FrameDim")) := by
  cases r with
  | obj g => exact std_alloc_invalid_dim env s n g hsize
  | member => exact std_alloc_member_invalid env s n hsize

theorem std_alloc_same_ref (env : Env) (s : StdBufferCbMgr) (n : Int) (r : FrameDimRef)
    (hsize : 0 < (r.read s.m_alloc_mgr).getMemSize) (hg : r.read s.m_alloc_mgr = s.getFrameDim)
    (hn : n = s.getNbBuffers) : s.allocBuffers env n r = (s, .ok ()) := by
  cases r with
  | obj g => exact std_alloc_same env s n g hsize hg hn
  | member => exact std_alloc_member_same env s n hsize hn

/-- A reference reads the same geometry after the call has assigned it to `m_frame_dim`. -/
theorem read_after_assign (r : FrameDimRef) (s : SoftBufferAllocMgr) (bl : List HeapBlock) :
    r.read ⟨r.read s, bl⟩ = r.read s := by
  cases r <;> rfl

/-- An aliased call that does not return early raises and leaves the empty state. -/
theorem member_call_ends_empty (env : Env) (pool : SoftBufferAllocMgr) (mgr : StdBufferCbMgr)
    (n : Int) :
    (0 < pool.getFrameDim.getMemSize → n ≠ pool.getNbBuffers →
      (pool.allocBuffers env n .member).2 = .raise (.hw .InvalidValue "Invalid FrameDim") ∧
      (pool.allocBuffers env n .member).1.getNbBuffers = 0 ∧
      (pool.allocBuffers env n .member).1.getFrameDim = FrameDim.unset) ∧
    (0 < mgr.getFrameDim.getMemSize → n ≠ mgr.getNbBuffers →
      (mgr.allocBuffers env n .member).2 = .raise (.hw .InvalidValue "Invalid FrameDim") ∧
      (mgr.allocBuffers env n .member).1.getNbBuffers = 0 ∧
      (mgr.allocBuffers env n .member).1.getFrameDim = FrameDim.unset ∧
      (mgr.allocBuffers env n .member).1.m_ts_list = []) := by
  constructor
  · intro hsize hn
    rw [soft_alloc_member_raise env pool n hsize hn]
    exact ⟨rfl, rfl, rfl⟩
  · intro hsize hn
    rw [std_alloc_member_raise env mgr n hsize hn]
    exact ⟨rfl, rfl, rfl, rfl⟩

/-! ## Allocation: success, rollback, validation, idempotence -/

/-- When the argument is an object other than the pool's own `m_frame_dim`: for every starting
state, every geometry `g` with a positive byte size and every `n` with
`1 ≤ n ≤ maxBuffers(g)`, when no acquisition of the call fails, `allocBuffers(n, g)` returns
normally and afterwards `getNbBuffers() = n` and `getFrameDim() = g`, both for
`SoftBufferAllocMgr` and for a `StdBufferCbMgr` over a `SoftBufferAllocMgr`. -/
theorem alloc_success_of_object (env : Env) (pool : SoftBufferAllocMgr) (mgr : StdBufferCbMgr)
    (n m : Int) (g : FrameDim)
    (hsize : 0 < g.getMemSize) (hmax : SoftBufferAllocMgr.getMaxNbBuffers env g = .ok m)
    (hn1 : 1 ≤ n) (hn2 : n ≤ m)
    (hres : env.reserve_ok = true)
    (hnew : ∀ j : Nat, (j : Int) < n → (env.new_char j).isSome = true)
    (hts : env.ts_reserve_ok = true) :
    ((pool.allocBuffers env n (.obj g)).2 = .ok () ∧
      (pool.allocBuffers env n (.obj g)).1.getNbBuffers = n ∧
      (pool.allocBuffers env n (.obj g)).1.getFrameDim = g) ∧
    ((mgr.allocBuffers env n (.obj g)).2 = .ok () ∧
      (mgr.allocBuffers env n (.obj g)).1.getNbBuffers = n ∧
      (mgr.allocBuffers env n (.obj g)).1.getFrameDim = g) := by
  have hfail : ¬ (env.reserve_ok = false ∨ ∃ k : Nat, (k : Int) < n ∧ env.new_char k = none) := by
    rintro (h | ⟨k, hk, hnone⟩)
    · rw [hres] at h; cases h
    · have := hnew k hk
      rw [hnone] at this
      cases this
  have hsoft : ∀ p : SoftBufferAllocMgr, ¬ (g = p.m_frame_dim ∧ n = p.getNbBuffers) →
      ∃ bl, p.allocBuffers env n (.obj g) = (⟨g, bl⟩, .ok ()) ∧ (bl.length : Int) = n := by
    intro p hp
    obtain ⟨bl, h1, h2, _⟩ := soft_alloc_fresh env p n m g hsize hp hmax hn1 hn2 hres hnew
    exact ⟨bl, h1, h2⟩
  constructor
  · by_cases hsame : g = pool.m_frame_dim ∧ n = pool.getNbBuffers
    · rw [soft_alloc_same env pool n g hsize hsame.1 hsame.2]
      exact ⟨rfl, hsame.2.symm, hsame.1.symm⟩
    · obtain ⟨bl, h1, h2⟩ := hsoft pool hsame
      rw [h1]
      exact ⟨rfl, h2, rfl⟩
  · rcases std_alloc_cases_obj env mgr n g with
      ⟨h0, _⟩ | ⟨_, hsame, h⟩ | ⟨_, _, e, _, he⟩ | ⟨_, _, bl, _, _, _, _, _, _, h, hlen, _⟩
    · omega
    · rw [h]
      exact ⟨rfl, hsame.2.symm, hsame.1.symm⟩
    · exfalso
      have hnew0 : ¬ (g = SoftBufferAllocMgr.new.m_frame_dim ∧
          n = SoftBufferAllocMgr.new.getNbBuffers) := by
        rintro ⟨_, h0⟩
        rw [h0] at hn1
        exact absurd hn1 (by decide)
      obtain ⟨bl, h1, _⟩ := hsoft _ hnew0
      rcases he with he | ⟨_, _, hts0, _⟩
      · rw [h1] at he
        cases he
      · rw [hts] at hts0
        cases hts0
    · rw [h]
      exact ⟨rfl, hlen, rfl⟩

/-- C1, the code at a failing input: a pool, and a manager over it, hold two buffers of 1024
bytes on a machine whose budget for that geometry is twelve and on which every acquisition
succeeds. `allocBuffers(3, getFrameDim())` hands the pool's own geometry over by reference:
`releaseBuffers()` resets it to `FrameDim()` before `getMaxNbBuffers(frame_dim)` reads it, the
call raises `InvalidValue` and no buffer is left, where the same call on a copy of the
geometry returns with three buffers. -/
theorem C1_aliased_geometry_raises :
    0 < samplePool.getFrameDim.getMemSize ∧
    SoftBufferAllocMgr.getMaxNbBuffers sampleEnv samplePool.getFrameDim = .ok 12 ∧
    samplePool.allocBuffers sampleEnv 3 .member =
      (SoftBufferAllocMgr.new, .raise (.hw .InvalidValue "Invalid FrameDim")) ∧
    (samplePool.allocBuffers sampleEnv 3 .member).1.getNbBuffers = 0 ∧
    sampleMgr.allocBuffers sampleEnv 3 .member =
      (sampleMgr.releaseBuffers, .raise (.hw .InvalidValue "Invalid FrameDim")) ∧
    (sampleMgr.allocBuffers sampleEnv 3 .member).1.getNbBuffers = 0 ∧
    (samplePool.allocBuffers sampleEnv 3 (.obj samplePool.getFrameDim)).2 = .ok () ∧
    (samplePool.allocBuffers sampleEnv 3 (.obj samplePool.getFrameDim)).1.getNbBuffers = 3 := by
  decide

/-- The rollback of a call on an object other than the pool's own `m_frame_dim`. -/
theorem alloc_rollback_of_object (env : Env) (pool : SoftBufferAllocMgr) (mgr : StdBufferCbMgr)
    (n m : Int) (g : FrameDim)
    (hsize : 0 < g.getMemSize) (hmax : SoftBufferAllocMgr.getMaxNbBuffers env g = .ok m)
    (hn1 : 1 ≤ n) (hn2 : n ≤ m)
    (hpool : ¬ (g = pool.m_frame_dim ∧ n = pool.getNbBuffers))
    (hmgr : ¬ (g = mgr.getFrameDim ∧ n = mgr.getNbBuffers)) :
    ((env.reserve_ok = false ∨ ∃ k : Nat, (k : Int) < n ∧ env.new_char k = none) →
      (pool.allocBuffers env n (.obj g)).2 = .raise .bad_alloc ∧
      (pool.allocBuffers env n (.obj g)).1.getNbBuffers = 0 ∧
      (pool.allocBuffers env n (.obj g)).1.getFrameDim = FrameDim.unset) ∧
    ((env.reserve_ok = false ∨ (∃ k : Nat, (k : Int) < n ∧ env.new_char k = none) ∨
        env.ts_reserve_ok = false) →
      (mgr.allocBuffers env n (.obj g)).2 = .raise .bad_alloc ∧
      (mgr.allocBuffers env n (.obj g)).1.getNbBuffers = 0 ∧
      (mgr.allocBuffers env n (.obj g)).1.getFrameDim = FrameDim.unset ∧
      (mgr.allocBuffers env n (.obj g)).1.m_ts_list = []) := by
  have hnew0 : ¬ (g = SoftBufferAllocMgr.new.m_frame_dim ∧
      n = SoftBufferAllocMgr.new.getNbBuffers) := by
    rintro ⟨_, h0⟩
    rw [h0] at hn1
    exact absurd hn1 (by decide)
  constructor
  · intro hfail
    rw [soft_alloc_acquire_fail env pool n m g hsize hpool hmax hn1 hn2 hfail]
    exact ⟨rfl, rfl, rfl⟩
  · intro hfail
    rcases std_alloc_cases_obj env mgr n g with
      ⟨h0, _⟩ | ⟨_, hsame, _⟩ | ⟨_, _, e, h, he⟩ | ⟨_, _, bl, _, _, _, _, hts, hok, _, _, _⟩
    · omega
    · exact absurd hsame hmgr
    · rw [h]
      refine ⟨?_, rfl, rfl, rfl⟩
      rcases he with he | ⟨_, _, _, he⟩
      · by_cases hp : env.reserve_ok = false ∨ ∃ k : Nat, (k : Int) < n ∧ env.new_char k = none
        · rw [soft_alloc_acquire_fail env _ n m g hsize hnew0 hmax hn1 hn2 hp] at he
          simp only [Result.raise.injEq] at he
          rw [he]
        · exfalso
          have hres : env.reserve_ok = true := by
            cases hr : env.reserve_ok with
            | true => rfl
            | false => exact absurd (Or.inl hr) hp
          have hnew : ∀ j : Nat, (j : Int) < n → (env.new_char j).isSome = true := by
            intro j hj
            cases hc : env.new_char j with
            | some v => rfl
            | none => exact absurd (Or.inr ⟨j, hj, hc⟩) hp
          obtain ⟨bl, h1, _⟩ := soft_alloc_fresh env _ n m g hsize hnew0 hmax hn1 hn2 hres hnew
          rw [h1] at he
          cases he
      · rw [he]
    · exfalso
      rcases hfail with hf | hf | hf
      · rw [soft_alloc_acquire_fail env _ n m g hsize hnew0 hmax hn1 hn2 (Or.inl hf)] at hok
        cases hok
      · rw [soft_alloc_acquire_fail env _ n m g hsize hnew0 hmax hn1 hn2 (Or.inr hf)] at hok
        cases hok
      · rw [hts] at hf
        cases hf

/-- C2: when `allocBuffers(n, g)` passes validation (positive byte size, `1 ≤ n ≤ maxBuffers(g)`),
goes on to acquire, and the acquisition of some buffer `k < n` (or the reservation of the
list) fails, the exception leaves the call and the pool is empty: no buffers and the default
geometry. For `StdBufferCbMgr` the same holds with an empty timestamp list as well, whether
the failure is in the wrapped pool or in sizing the timestamp list. A call on the pool's own
geometry, `allocBuffers(n, getFrameDim())`, that does not return early never reaches the
acquisition: it raises and leaves the same empty state. -/
theorem C2_alloc_rollback (env : Env) (pool : SoftBufferAllocMgr) (mgr : StdBufferCbMgr)
    (n m : Int) (g : FrameDim)
    (hsize : 0 < g.getMemSize) (hmax : SoftBufferAllocMgr.getMaxNbBuffers env g = .ok m)
    (hn1 : 1 ≤ n) (hn2 : n ≤ m)
    (hpool : ¬ (g = pool.m_frame_dim ∧ n = pool.getNbBuffers))
    (hmgr : ¬ (g = mgr.getFrameDim ∧ n = mgr.getNbBuffers)) :
    ((env.reserve_ok = false ∨ ∃ k : Nat, (k : Int) < n ∧ env.new_char k = none) →
      (pool.allocBuffers env n (.obj g)).2 = .raise .bad_alloc ∧
      (pool.allocBuffers env n (.obj g)).1.getNbBuffers = 0 ∧
      (pool.allocBuffers env n (.obj g)).1.getFrameDim = FrameDim.unset) ∧
    ((env.reserve_ok = false ∨ (∃ k : Nat, (k : Int) < n ∧ env.new_char k = none) ∨
        env.ts_reserve_ok = false) →
      (mgr.allocBuffers env n (.obj g)).2 = .raise .bad_alloc ∧
      (mgr.allocBuffers env n (.obj g)).1.getNbBuffers = 0 ∧
      (mgr.allocBuffers env n (.obj g)).1.getFrameDim = FrameDim.unset ∧
      (mgr.allocBuffers env n (.obj g)).1.m_ts_list = []) ∧
    (0 < pool.getFrameDim.getMemSize → n ≠ pool.getNbBuffers →
      (pool.allocBuffers env n .member).2 = .raise (.hw .InvalidValue "Invalid FrameDim") ∧
      (pool.allocBuffers env n .member).1.getNbBuffers = 0 ∧
      (pool.allocBuffers env n .member).1.getFrameDim = FrameDim.unset) ∧
    (0 < mgr.getFrameDim.getMemSize → n ≠ mgr.getNbBuffers →
      (mgr.allocBuffers env n .member).2 = .raise (.hw .InvalidValue "Invalid FrameDim") ∧
      (mgr.allocBuffers env n .member).1.getNbBuffers = 0 ∧
      (mgr.allocBuffers env n .member).1.getFrameDim = FrameDim.unset ∧
      (mgr.allocBuffers env n .member).1.m_ts_list = []) :=
  ⟨(alloc_rollback_of_object env pool mgr n m g hsize hmax hn1 hn2 hpool hmgr).1,
   (alloc_rollback_of_object env pool mgr n m g hsize hmax hn1 hn2 hpool hmgr).2,
   (member_call_ends_empty env pool mgr n).1, (member_call_ends_empty env pool mgr n).2⟩

/-- An instance of C2: of three buffers asked for, the second cannot be acquired; and, for
the manager, the timestamp list cannot be sized. -/
theorem C2_alloc_rollback_witness :
    ((samplePool.allocBuffers failingEnv 3 (.obj sampleDim)).2 = .raise .bad_alloc ∧
      (samplePool.allocBuffers failingEnv 3 (.obj sampleDim)).1.getNbBuffers = 0 ∧
      (samplePool.allocBuffers failingEnv 3 (.obj sampleDim)).1.getFrameDim = FrameDim.unset) ∧
    ((sampleMgr.allocBuffers tsFailingEnv 3 (.obj sampleDim)).2 = .raise .bad_alloc ∧
      (sampleMgr.allocBuffers tsFailingEnv 3 (.obj sampleDim)).1.getNbBuffers = 0 ∧
      (sampleMgr.allocBuffers tsFailingEnv 3 (.obj sampleDim)).1.getFrameDim = FrameDim.unset ∧
      (sampleMgr.allocBuffers tsFailingEnv 3 (.obj sampleDim)).1.m_ts_list = []) :=
  ⟨(C2_alloc_rollback failingEnv samplePool sampleMgr 3 12 sampleDim (by decide) (by decide)
      (by decide) (by decide) (by decide) (by decide)).1 (Or.inr ⟨1, by decide, rfl⟩),
   (C2_alloc_rollback tsFailingEnv samplePool sampleMgr 3 12 sampleDim (by decide) (by decide)
      (by decide) (by decide) (by decide) (by decide)).2.1 (Or.inr (Or.inr rfl))⟩

/-- C3, as stated, fails: a pool (and a manager) holding two buffers rejects
`allocBuffers(1, g)` for a geometry `g` of zero bytes, and when the error is raised the two
buffers and their geometry are still there, so the state is not the empty one. -/
theorem C3_counterexample :
    emptyDim.getMemSize ≤ 0 ∧
    (samplePool.allocBuffers sampleEnv 1 (.obj emptyDim)).2 =
      .raise (.hw .InvalidValue "Invalid FrameDim") ∧
    ¬ ((samplePool.allocBuffers sampleEnv 1 (.obj emptyDim)).1.getNbBuffers = 0 ∧
        (samplePool.allocBuffers sampleEnv 1 (.obj emptyDim)).1.getFrameDim = FrameDim.unset) ∧
    (sampleMgr.allocBuffers sampleEnv 1 (.obj emptyDim)).2 =
      .raise (.hw .InvalidValue "Invalid FrameDim") ∧
    ¬ ((sampleMgr.allocBuffers sampleEnv 1 (.obj emptyDim)).1.getNbBuffers = 0 ∧
        (sampleMgr.allocBuffers sampleEnv 1 (.obj emptyDim)).1.getFrameDim = FrameDim.unset) := by
  decide

/-- The two rejections of a call on an object other than the pool's own `m_frame_dim`. -/
theorem validation_failure_of_object (env : Env) (pool : SoftBufferAllocMgr) (mgr : StdBufferCbMgr)
    (n : Int) (g : FrameDim) :
    (∀ m : Int, 0 < g.getMemSize → SoftBufferAllocMgr.getMaxNbBuffers env g = .ok m → (n < 1 ∨ m < n) →
      (¬ (g = pool.m_frame_dim ∧ n = pool.getNbBuffers) →
        (pool.allocBuffers env n (.obj g)).2 = .raise (.hw .InvalidValue "Invalid number of buffers") ∧
        (pool.allocBuffers env n (.obj g)).1.getNbBuffers = 0 ∧
        (pool.allocBuffers env n (.obj g)).1.getFrameDim = FrameDim.unset) ∧
      (¬ (g = mgr.getFrameDim ∧ n = mgr.getNbBuffers) →
        (mgr.allocBuffers env n (.obj g)).2 = .raise (.hw .InvalidValue "Invalid number of buffers") ∧
        (mgr.allocBuffers env n (.obj g)).1.getNbBuffers = 0 ∧
        (mgr.allocBuffers env n (.obj g)).1.getFrameDim = FrameDim.unset ∧
        (mgr.allocBuffers env n (.obj g)).1.m_ts_list = [])) ∧
    (g.getMemSize ≤ 0 →
      pool.allocBuffers env n (.obj g) = (pool, .raise (.hw .InvalidValue "Invalid FrameDim")) ∧
      mgr.allocBuffers env n (.obj g) = (mgr, .raise (.hw .InvalidValue "Invalid FrameDim"))) := by
  refine ⟨?_, fun h => ⟨soft_alloc_invalid_dim env pool n g h, std_alloc_invalid_dim env mgr n g h⟩⟩
  intro m hsize hmax hn
  constructor
  · intro hpool
    rw [soft_alloc_count env pool n m g hsize hpool hmax hn]
    exact ⟨rfl, rfl, rfl⟩
  · intro hmgr
    rcases std_alloc_cases_obj env mgr n g with
      ⟨h0, _⟩ | ⟨_, hsame, _⟩ | ⟨_, _, e, h, he⟩ | ⟨_, _, _, m1, hmax1, hn1, hn2, _⟩
    · omega
    · exact absurd hsame hmgr
    · rw [h]
      refine ⟨?_, rfl, rfl, rfl⟩
      by_cases hnew0 : g = SoftBufferAllocMgr.new.m_frame_dim ∧
          n = SoftBufferAllocMgr.new.getNbBuffers
      · rw [hnew0.1] at hsize
        exact absurd hsize (by decide)
      · rw [soft_alloc_count env _ n m g hsize hnew0 hmax hn] at he
        rcases he with he | ⟨_, he, _⟩
        · simp only [Result.raise.injEq] at he
          rw [he]
        · cases he
    · rw [hmax] at hmax1
      simp only [Result.ok.injEq] at hmax1
      omega

/-- C3, amended: for every starting state, including one that holds buffers, when
`allocBuffers(n, g)` is rejected because `n` is outside `[1, maxBuffers(g)]` (the byte size
being positive and the pair `(g, n)` not the current one), the state is the empty one when
the error is raised: no buffers, the default geometry and, for `StdBufferCbMgr`, no
timestamps. When the call is rejected because the byte size is not positive, the error is
raised before anything is released and the state is the starting state. Both hold as well
for a call on the pool's own geometry, `allocBuffers(n, getFrameDim())`: with a byte size that
is not positive the state is kept, and otherwise a call that does not return early is
rejected, whatever `n` is, and leaves the empty state. -/
theorem C3_validation_failure (env : Env) (pool : SoftBufferAllocMgr) (mgr : StdBufferCbMgr)
    (n : Int) (g : FrameDim) :
    (∀ m : Int, 0 < g.getMemSize → SoftBufferAllocMgr.getMaxNbBuffers env g = .ok m →
      (n < 1 ∨ m < n) →
      (¬ (g = pool.m_frame_dim ∧ n = pool.getNbBuffers) →
        (pool.allocBuffers env n (.obj g)).2 =
          .raise (.hw .InvalidValue "Invalid number of buffers") ∧
        (pool.allocBuffers env n (.obj g)).1.getNbBuffers = 0 ∧
        (pool.allocBuffers env n (.obj g)).1.getFrameDim = FrameDim.unset) ∧
      (¬ (g = mgr.getFrameDim ∧ n = mgr.getNbBuffers) →
        (mgr.allocBuffers env n (.obj g)).2 =
          .raise (.hw .InvalidValue "Invalid number of buffers") ∧
        (mgr.allocBuffers env n (.obj g)).1.getNbBuffers = 0 ∧
        (mgr.allocBuffers env n (.obj g)).1.getFrameDim = FrameDim.unset ∧
        (mgr.allocBuffers env n (.obj g)).1.m_ts_list = [])) ∧
    (g.getMemSize ≤ 0 →
      pool.allocBuffers env n (.obj g) = (pool, .raise (.hw .InvalidValue "Invalid FrameDim")) ∧
      mgr.allocBuffers env n (.obj g) = (mgr, .raise (.hw .InvalidValue "Invalid FrameDim"))) ∧
    ((pool.getFrameDim.getMemSize ≤ 0 →
        pool.allocBuffers env n .member =
          (pool, .raise (.hw .InvalidValue "Invalid FrameDim"))) ∧
      (mgr.getFrameDim.getMemSize ≤ 0 →
        mgr.allocBuffers env n .member =
          (mgr, .raise (.hw .InvalidValue "Invalid FrameDim")))) ∧
    (0 < pool.getFrameDim.getMemSize → n ≠ pool.getNbBuffers →
      (pool.allocBuffers env n .member).2 = .raise (.hw .InvalidValue "Invalid FrameDim") ∧
      (pool.allocBuffers env n .member).1.getNbBuffers = 0 ∧
      (pool.allocBuffers env n .member).1.getFrameDim = FrameDim.unset) ∧
    (0 < mgr.getFrameDim.getMemSize → n ≠ mgr.getNbBuffers →
      (mgr.allocBuffers env n .member).2 = .raise (.hw .InvalidValue "Invalid FrameDim") ∧
      (mgr.allocBuffers env n .member).1.getNbBuffers = 0 ∧
      (mgr.allocBuffers env n .member).1.getFrameDim = FrameDim.unset ∧
      (mgr.allocBuffers env n .member).1.m_ts_list = []) :=
  ⟨(validation_failure_of_object env pool mgr n g).1,
   (validation_failure_of_object env pool mgr n g).2,
   ⟨soft_alloc_member_invalid env pool n, std_alloc_member_invalid env mgr n⟩,
   (member_call_ends_empty env pool mgr n).1, (member_call_ends_empty env pool mgr n).2⟩

/-- An instance of amended C3: thirteen buffers are one more than the budget of twelve, and
a geometry of zero bytes is rejected with the two buffers kept. -/
theorem C3_validation_failure_witness :
    ((samplePool.allocBuffers sampleEnv 13 (.obj sampleDim)).2 =
        .raise (.hw .InvalidValue "Invalid number of buffers") ∧
      (samplePool.allocBuffers sampleEnv 13 (.obj sampleDim)).1.getNbBuffers = 0 ∧
      (samplePool.allocBuffers sampleEnv 13 (.obj sampleDim)).1.getFrameDim = FrameDim.unset) ∧
    ((sampleMgr.allocBuffers sampleEnv 13 (.obj sampleDim)).2 =
        .raise (.hw .InvalidValue "Invalid number of buffers") ∧
      (sampleMgr.allocBuffers sampleEnv 13 (.obj sampleDim)).1.getNbBuffers = 0 ∧
      (sampleMgr.allocBuffers sampleEnv 13 (.obj sampleDim)).1.getFrameDim = FrameDim.unset ∧
      (sampleMgr.allocBuffers sampleEnv 13 (.obj sampleDim)).1.m_ts_list = []) ∧
    (samplePool.allocBuffers sampleEnv 13 (.obj emptyDim) =
        (samplePool, .raise (.hw .InvalidValue "Invalid FrameDim")) ∧
      sampleMgr.allocBuffers sampleEnv 13 (.obj emptyDim) =
        (sampleMgr, .raise (.hw .InvalidValue "Invalid FrameDim"))) :=
  ⟨((C3_validation_failure sampleEnv samplePool sampleMgr 13 sampleDim).1 12 (by decide)
      (by decide) (Or.inr (by decide))).1 (by decide),
   ((C3_validation_failure sampleEnv samplePool sampleMgr 13 sampleDim).1 12 (by decide)
      (by decide) (Or.inr (by decide))).2 (by decide),
   (C3_validation_failure sampleEnv samplePool sampleMgr 13 emptyDim).2.1 (by decide)⟩

/-- C4: in the state left by an `allocBuffers(n, g)` that returned normally, a second
`allocBuffers(n, g)` with the same argument, or with the geometry that the pool now has
(`allocBuffers(n, getFrameDim())`), whatever the machine answers then, returns normally and
changes nothing: the whole state, hence every `getBufferPtr(i)` and, for `StdBufferCbMgr`, the
timestamp list are as before. The argument `r` is any reference, to an object or to the pool's
own geometry. -/
theorem C4_alloc_idempotent (env env2 : Env) (pool : SoftBufferAllocMgr) (mgr : StdBufferCbMgr)
    (n : Int) (r : FrameDimRef) :
    ((pool.allocBuffers env n r).2 = .ok () →
      (pool.allocBuffers env n r).1.allocBuffers env2 n r =
        ((pool.allocBuffers env n r).1, .ok ()) ∧
      (pool.allocBuffers env n r).1.allocBuffers env2 n .member =
        ((pool.allocBuffers env n r).1, .ok ()) ∧
      ∀ i : Int, ((pool.allocBuffers env n r).1.allocBuffers env2 n r).1.getBufferPtr i =
        (pool.allocBuffers env n r).1.getBufferPtr i) ∧
    ((mgr.allocBuffers env n r).2 = .ok () →
      (mgr.allocBuffers env n r).1.allocBuffers env2 n r =
        ((mgr.allocBuffers env n r).1, .ok ()) ∧
      (mgr.allocBuffers env n r).1.allocBuffers env2 n .member =
        ((mgr.allocBuffers env n r).1, .ok ()) ∧
      ((mgr.allocBuffers env n r).1.allocBuffers env2 n r).1.m_ts_list =
        (mgr.allocBuffers env n r).1.m_ts_list ∧
      ∀ i : Int, ((mgr.allocBuffers env n r).1.allocBuffers env2 n r).1.getBufferPtr i =
        (mgr.allocBuffers env n r).1.getBufferPtr i) := by
  constructor
  · intro hok
    have key : (pool.allocBuffers env n r).1.allocBuffers env2 n r =
          ((pool.allocBuffers env n r).1, .ok ()) ∧
        (pool.allocBuffers env n r).1.allocBuffers env2 n .member =
          ((pool.allocBuffers env n r).1, .ok ()) := by
      rcases soft_alloc_cases env pool n r with
        ⟨_, h⟩ | ⟨hsize, hsame, h⟩ | ⟨_, _, e, h⟩ | ⟨hsize, _, bl, _, _, _, _, h, hlen, _⟩
      · rw [h] at hok; cases hok
      · rw [h]
        exact ⟨soft_alloc_same_ref env2 pool n r hsize hsame.1 hsame.2,
          soft_alloc_member_same env2 pool n (hsame.1 ▸ hsize) hsame.2⟩
      · rw [h] at hok; cases hok
      · rw [h]
        have hread := read_after_assign r pool bl
        exact ⟨soft_alloc_same_ref env2 _ n r (by rw [hread]; exact hsize) hread hlen.symm,
          soft_alloc_member_same env2 _ n hsize hlen.symm⟩
    rw [key.1]
    exact ⟨rfl, key.2, fun _ => rfl⟩
  · intro hok
    have key : (mgr.allocBuffers env n r).1.allocBuffers env2 n r =
          ((mgr.allocBuffers env n r).1, .ok ()) ∧
        (mgr.allocBuffers env n r).1.allocBuffers env2 n .member =
          ((mgr.allocBuffers env n r).1, .ok ()) := by
      rcases std_alloc_cases env mgr n r with
        ⟨_, h⟩ | ⟨hsize, hsame, h⟩ | ⟨_, _, e, h⟩ | ⟨hsize, _, bl, _, _, _, _, _, h, hlen, _⟩
      · rw [h] at hok; cases hok
      · rw [h]
        exact ⟨std_alloc_same_ref env2 mgr n r hsize hsame.1 hsame.2,
          std_alloc_member_same env2 mgr n (hsame.1 ▸ hsize) hsame.2⟩
      · rw [h] at hok; cases hok
      · rw [h]
        have hread := read_after_assign r mgr.m_alloc_mgr bl
        exact ⟨std_alloc_same_ref env2 _ n r (by rw [hread]; exact hsize) hread hlen.symm,
          std_alloc_member_same env2 _ n hsize hlen.symm⟩
    rw [key.1]
    exact ⟨rfl, key.2, rfl, fun _ => rfl⟩

/-- An instance of C4: three buffers are allocated, then asked for again on a machine that
would refuse every acquisition. -/
theorem C4_alloc_idempotent_witness :
    (samplePool.allocBuffers sampleEnv 3 (.obj sampleDim)).1.allocBuffers failingEnv 3
        (.obj sampleDim) =
      ((samplePool.allocBuffers sampleEnv 3 (.obj sampleDim)).1, .ok ()) ∧
    (sampleMgr.allocBuffers sampleEnv 3 (.obj sampleDim)).1.allocBuffers tsFailingEnv 3
        .member =
      ((sampleMgr.allocBuffers sampleEnv 3 (.obj sampleDim)).1, .ok ()) :=
  ⟨((C4_alloc_idempotent sampleEnv failingEnv samplePool sampleMgr 3 (.obj sampleDim)).1
      (by decide)).1,
   ((C4_alloc_idempotent sampleEnv tsFailingEnv samplePool sampleMgr 3 (.obj sampleDim)).2
      (by decide)).2.1⟩

/-! ## Frame notification -/

theorem getBufferPtr_in_range (pool : SoftBufferAllocMgr) (i : Int) (h0 : 0 ≤ i)
    (h1 : i < pool.getNbBuffers) : ∃ p, pool.getBufferPtr i = .ok p := by
  have hlt : i.toNat < pool.m_buffer_list.length := by
    unfold SoftBufferAllocMgr.getNbBuffers at h1
    omega
  refine ⟨(pool.m_buffer_list.get ⟨i.toNat, hlt⟩).ptr, ?_⟩
  simp only [SoftBufferAllocMgr.getBufferPtr, h0, if_true]
  rw [List.getElem?_eq_getElem hlt]
  rfl

theorem tmod_eq_emod_of_nonneg (f n : Int) (hf : 0 ≤ f) (hn : 0 ≤ n) : Int.tmod f n = f % n := by
  obtain ⟨a, rfl⟩ := Int.eq_ofNat_of_zero_le hf
  obtain ⟨b, rfl⟩ := Int.eq_ofNat_of_zero_le hn
  rfl

/-- With callbacks active, buffers allocated and a frame number that is not negative,
`newFrameReady` hands one frame info to the callback and changes nothing. -/
theorem newFrameReady_active (now : Timestamp) (cb : FrameInfoType → Bool) (mgr : StdBufferCbMgr)
    (f : Int) (hn : 1 ≤ mgr.getNbBuffers) (hact : mgr.m_fcb_act = true) (hf : 0 ≤ f) :
    ∃ p, mgr.getBufferPtr (f % mgr.getNbBuffers) = .ok p ∧
      mgr.newFrameReady now cb f =
        .ok (mgr, [⟨f, p, mgr.getFrameDim, now⟩], cb ⟨f, p, mgr.getFrameDim, now⟩) := by
  have hmod0 : 0 ≤ f % mgr.getNbBuffers := Int.emod_nonneg f (by omega)
  have hmod1 : f % mgr.getNbBuffers < mgr.getNbBuffers := Int.emod_lt_of_pos f (by omega)
  obtain ⟨p, hp⟩ := getBufferPtr_in_range mgr.m_alloc_mgr _ hmod0 hmod1
  refine ⟨p, hp, ?_⟩
  have hne : ¬ mgr.getNbBuffers = 0 := by omega
  have hp1 : mgr.getBufferPtr (Int.tmod f mgr.getNbBuffers) = .ok p := by
    rw [tmod_eq_emod_of_nonneg f _ hf (by omega)]
    exact hp
  simp only [StdBufferCbMgr.newFrameReady, hact, hne, if_false, hp1]
  simp

/-- Whatever `newFrameReady` does, it leaves every data member as it was. -/
theorem newFrameReady_state (now : Timestamp) (cb : FrameInfoType → Bool) (mgr s1 : StdBufferCbMgr)
    (f : Int) (ev : List FrameInfoType) (r : Bool)
    (h : mgr.newFrameReady now cb f = .ok (s1, ev, r)) : s1 = mgr := by
  unfold StdBufferCbMgr.newFrameReady at h
  split at h
  · simp only [Result.ok.injEq, Prod.mk.injEq] at h
    exact h.1.symm
  · split at h
    · cases h
    · simp only at h
      cases hp : mgr.getBufferPtr (Int.tmod f mgr.getNbBuffers) with
      | ok p =>
        rw [hp] at h
        simp only [Result.ok.injEq, Prod.mk.injEq] at h
        exact h.1.symm
      | raise e => rw [hp] at h; cases h
      | undefined => rw [hp] at h; cases h

/-- C5: for a manager with `n ≥ 1` buffers and callbacks active, and a frame number `f ≥ 0`,
`newFrameReady(f)` uses the slot `f mod n`, which lies in `[0, n)`: the frame info handed to
the callback carries `f`, `getBufferPtr(f mod n)` and `getFrameDim()`, and the call returns
what the callback returns. The frames `n, n+1, ..., 2n-1` use the slots `0, 1, ..., n-1`. -/
theorem C5_newFrameReady_slot (now : Timestamp) (cb : FrameInfoType → Bool)
    (mgr : StdBufferCbMgr) (n f : Int)
    (hnb : mgr.getNbBuffers = n) (hn : 1 ≤ n) (hact : mgr.m_fcb_act = true) (hf : 0 ≤ f) :
    (0 ≤ f % n ∧ f % n < n) ∧
    (∃ p, mgr.getBufferPtr (f % n) = .ok p ∧
      mgr.newFrameReady now cb f =
        .ok (mgr, [⟨f, p, mgr.getFrameDim, now⟩], cb ⟨f, p, mgr.getFrameDim, now⟩)) ∧
    (∀ j : Int, 0 ≤ j → j < n → ∃ p, mgr.getBufferPtr j = .ok p ∧
      mgr.newFrameReady now cb (n + j) =
        .ok (mgr, [⟨n + j, p, mgr.getFrameDim, now⟩], cb ⟨n + j, p, mgr.getFrameDim, now⟩)) := by
  subst hnb
  refine ⟨⟨Int.emod_nonneg f (by omega), Int.emod_lt_of_pos f (by omega)⟩,
    newFrameReady_active now cb mgr f hn hact hf, ?_⟩
  intro j hj0 hj1
  have h := newFrameReady_active now cb mgr (mgr.getNbBuffers + j) hn hact (by omega)
  have hslot : (mgr.getNbBuffers + j) % mgr.getNbBuffers = j := by
    rw [Int.add_emod_self_left]
    exact Int.emod_eq_of_lt hj0 hj1
  rwa [hslot] at h

/-- An instance of C5: with four buffers, frame 6 uses slot 2. -/
theorem C5_newFrameReady_slot_witness :
    ((0 : Int) ≤ 6 % 4 ∧ (6 : Int) % 4 < 4) ∧
    (∃ p, readyMgr.getBufferPtr (6 % 4) = .ok p ∧
      readyMgr.newFrameReady (Timestamp.ofTime 15) acceptAll 6 =
        .ok (readyMgr, [⟨6, p, readyMgr.getFrameDim, Timestamp.ofTime 15⟩],
          acceptAll ⟨6, p, readyMgr.getFrameDim, Timestamp.ofTime 15⟩)) :=
  ⟨(C5_newFrameReady_slot (Timestamp.ofTime 15) acceptAll readyMgr 4 6 (by decide) (by decide)
      (by decide) (by decide)).1,
   (C5_newFrameReady_slot (Timestamp.ofTime 15) acceptAll readyMgr 4 6 (by decide) (by decide)
      (by decide) (by decide)).2.1⟩

/-- C6, the code at a failing input: a manager with four buffers, callbacks active and the
start timestamp 10 receives `newFrameReady(0)` at the instant 15. The call succeeds and
hands the frame to the callback, but `m_ts_list` is not written: `getBufferTimestamp(0)`
afterwards is the unset timestamp, not `15 - 10`. -/
theorem C6_timestamp_not_recorded :
    readyMgr.getNbBuffers = 4 ∧ readyMgr.m_fcb_act = true ∧
    readyMgr.m_start_ts = Timestamp.ofTime 10 ∧
    readyMgr.newFrameReady (Timestamp.ofTime 15) acceptAll 0 =
      .ok (readyMgr, [⟨0, 4096, sampleDim, Timestamp.ofTime 15⟩], true) ∧
    readyMgr.getBufferTimestamp 0 = .ok Timestamp.unset ∧
    readyMgr.getBufferTimestamp 0 ≠
      .ok ((Timestamp.ofTime 15).sub (Timestamp.ofTime 10)) := by
  decide

/-- C7: with callbacks inactive, `newFrameReady(f)` returns false, hands nothing to the
callback and leaves the whole state as it was, for every state and every `f`. -/
theorem C7_newFrameReady_inactive (now : Timestamp) (cb : FrameInfoType → Bool)
    (mgr : StdBufferCbMgr) (f : Int) (hact : mgr.m_fcb_act = false) :
    mgr.newFrameReady now cb f = .ok (mgr, [], false) := by
  simp [StdBufferCbMgr.newFrameReady, hact]

/-- An instance of C7: a manager just constructed has no buffers and inactive callbacks. -/
theorem C7_newFrameReady_inactive_witness :
    (StdBufferCbMgr.new none).getNbBuffers = 0 ∧
    (StdBufferCbMgr.new none).newFrameReady (Timestamp.ofTime 15) acceptAll 3 =
      .ok (StdBufferCbMgr.new none, [], false) :=
  ⟨by decide, C7_newFrameReady_inactive (Timestamp.ofTime 15) acceptAll (StdBufferCbMgr.new none)
    3 (by decide)⟩

/-! ## Timestamps over sequences of calls -/

theorem tsUnset_alloc (env : Env) (s : StdBufferCbMgr) (n : Int) (r : FrameDimRef)
    (h : TsUnset s) : TsUnset (s.allocBuffers env n r).1 := by
  rcases std_alloc_cases env s n r with
    ⟨_, h1⟩ | ⟨_, _, h1⟩ | ⟨_, _, e, h1⟩ | ⟨_, _, bl, _, _, _, _, _, h1, hlen, _⟩
  · rw [h1]; exact h
  · rw [h1]; exact h
  · rw [h1]; rfl
  · rw [h1]
    have hl : n.toNat = bl.length := by omega
    simp only [TsUnset, hl]

theorem tsUnset_step (cb : FrameInfoType → Bool) (s s1 : StdBufferCbMgr) (c : Call)
    (h : TsUnset s) (hs : s.step cb c = some s1) : TsUnset s1 := by
  cases c with
  | allocBuffers env n g =>
    have key := tsUnset_alloc env s n g h
    simp only [StdBufferCbMgr.step] at hs
    generalize s.allocBuffers env n g = r at hs key
    obtain ⟨s2, res⟩ := r
    cases res <;> simp only [Option.some.injEq] at hs
    · rw [← hs]; exact key
    · rw [← hs]; exact key
    · cases hs
  | releaseBuffers =>
    simp only [StdBufferCbMgr.step, Option.some.injEq] at hs
    rw [← hs]; rfl
  | setStartTimestamp t =>
    simp only [StdBufferCbMgr.step, Option.some.injEq] at hs
    rw [← hs]
    unfold StdBufferCbMgr.setStartTimestamp
    split <;> exact h
  | setFrameCallbackActive b =>
    simp only [StdBufferCbMgr.step, Option.some.injEq] at hs
    rw [← hs]; exact h
  | newFrameReady now f =>
    simp only [StdBufferCbMgr.step] at hs
    cases hr : s.newFrameReady now cb f with
    | ok v =>
      obtain ⟨s2, ev, r⟩ := v
      rw [hr] at hs
      simp only [Option.some.injEq] at hs
      rw [← hs, newFrameReady_state now cb s s2 f ev r hr]
      exact h
    | raise e => rw [hr] at hs; cases hs
    | undefined => rw [hr] at hs; cases hs

theorem tsUnset_run (cb : FrameInfoType → Bool) (calls : List Call) :
    ∀ s s1 : StdBufferCbMgr, TsUnset s → StdBufferCbMgr.run cb s calls = some s1 → TsUnset s1 := by
  induction calls with
  | nil =>
    intro s s1 h hr
    simp only [StdBufferCbMgr.run, Option.some.injEq] at hr
    rw [← hr]; exact h
  | cons c cs ih =>
    intro s s1 h hr
    simp only [StdBufferCbMgr.run] at hr
    cases hs : s.step cb c with
    | none => rw [hs] at hr; cases hr
    | some s2 =>
      rw [hs] at hr
      exact ih s2 s1 (tsUnset_step cb s s2 c h hs) hr

/-- A call that neither allocates nor releases, with a valid frame number, is defined on a
manager that holds buffers and keeps the pool and the timestamp list. -/
theorem step_keeps (cb : FrameInfoType → Bool) (s : StdBufferCbMgr) (c : Call)
    (hn : 1 ≤ s.getNbBuffers) (hk : c.keepsBuffers = true) (hv : c.frameValid = true) :
    ∃ s1, s.step cb c = some s1 ∧ s1.m_alloc_mgr = s.m_alloc_mgr ∧ s1.m_ts_list = s.m_ts_list := by
  cases c with
  | allocBuffers env n g => cases hk
  | releaseBuffers => cases hk
  | setStartTimestamp t =>
    refine ⟨_, rfl, ?_, ?_⟩ <;>
    · unfold StdBufferCbMgr.setStartTimestamp
      split <;> rfl
  | setFrameCallbackActive b => exact ⟨_, rfl, rfl, rfl⟩
  | newFrameReady now f =>
    by_cases hact : s.m_fcb_act = false
    · refine ⟨s, ?_, rfl, rfl⟩
      simp [StdBufferCbMgr.step, StdBufferCbMgr.newFrameReady, hact]
    · have hf : 0 ≤ f := by simpa [Call.frameValid] using hv
      obtain ⟨p, _, hp⟩ := newFrameReady_active now cb s f hn (by simpa using hact) hf
      refine ⟨s, ?_, rfl, rfl⟩
      simp only [StdBufferCbMgr.step, hp]

theorem run_keeps (cb : FrameInfoType → Bool) (calls : List Call) :
    ∀ s : StdBufferCbMgr, 1 ≤ s.getNbBuffers →
      (∀ c ∈ calls, c.keepsBuffers = true) → (∀ c ∈ calls, c.frameValid = true) →
      ∃ s1, StdBufferCbMgr.run cb s calls = some s1 ∧ s1.m_alloc_mgr = s.m_alloc_mgr ∧
        s1.m_ts_list = s.m_ts_list := by
  induction calls with
  | nil => intro s _ _ _; exact ⟨s, rfl, rfl, rfl⟩
  | cons c cs ih =>
    intro s hn hk hv
    obtain ⟨s1, h1, hp1, ht1⟩ := step_keeps cb s c hn (hk c (List.mem_cons_self c cs))
      (hv c (List.mem_cons_self c cs))
    have hn1 : 1 ≤ s1.getNbBuffers := by
      unfold StdBufferCbMgr.getNbBuffers
      rw [hp1]
      exact hn
    obtain ⟨s2, h2, hp2, ht2⟩ := ih s1 hn1 (fun c hc => hk c (List.mem_cons_of_mem _ hc))
      (fun c hc => hv c (List.mem_cons_of_mem _ hc))
    refine ⟨s2, ?_, hp2.trans hp1, ht2.trans ht1⟩
    simp only [StdBufferCbMgr.run, h1, h2]

theorem getBufferTimestamp_unset (s : StdBufferCbMgr) (i : Int) (h : TsUnset s)
    (h0 : 0 ≤ i) (h1 : i < s.getNbBuffers) : s.getBufferTimestamp i = .ok Timestamp.unset := by
  have hlt : i.toNat < s.m_alloc_mgr.m_buffer_list.length := by
    unfold StdBufferCbMgr.getNbBuffers SoftBufferAllocMgr.getNbBuffers at h1
    omega
  unfold TsUnset at h
  have hget : s.m_ts_list[i.toNat]? = some Timestamp.unset := by
    rw [h, List.getElem?_replicate]
    simp [hlt]
  simp only [StdBufferCbMgr.getBufferTimestamp, h0, if_true, hget]
  rfl

theorem std_alloc_ok_nb (env : Env) (s : StdBufferCbMgr) (n : Int) (r : FrameDimRef)
    (hok : (s.allocBuffers env n r).2 = .ok ()) : (s.allocBuffers env n r).1.getNbBuffers = n := by
  rcases std_alloc_cases env s n r with
    ⟨_, h1⟩ | ⟨_, hsame, h1⟩ | ⟨_, _, e, h1⟩ | ⟨_, _, bl, _, _, _, _, _, h1, hlen, _⟩
  · rw [h1] at hok; cases hok
  · rw [h1]; exact hsame.2.symm
  · rw [h1] at hok; cases hok
  · rw [h1]; exact hlen

/-- Take a manager constructed over a pool of its own, or over a borrowed pool that holds
no buffers then, in any state its calls can lead to, and let `allocBuffers(n, g)` return
normally. After any later calls that neither allocate nor
release (they may set the start timestamp, toggle the callbacks and signal frames `f ≥ 0`),
every slot `i` in `[0, n)` that no `newFrameReady(f)` with `f mod n = i` has targeted
reports `getBufferTimestamp(i)` unset. And a `newFrameReady(f)` changes no entry of the
timestamp list other than that of slot `f mod n`. -/
theorem untargeted_slot_unset_of_empty_pool (cb : FrameInfoType → Bool) :
    (∀ (alloc_mgr : Option SoftBufferAllocMgr) (before : List Call) (s0 : StdBufferCbMgr)
        (env : Env) (n : Int) (g : FrameDimRef) (later : List Call) (i : Int),
      (StdBufferCbMgr.new alloc_mgr).getNbBuffers = 0 →
      StdBufferCbMgr.run cb (StdBufferCbMgr.new alloc_mgr) before = some s0 →
      (s0.allocBuffers env n g).2 = .ok () →
      (∀ c ∈ later, c.keepsBuffers = true) → (∀ c ∈ later, c.frameValid = true) →
      0 ≤ i → i < n → (∀ c ∈ later, c.targets n i = false) →
      ∃ s2, StdBufferCbMgr.run cb (s0.allocBuffers env n g).1 later = some s2 ∧
        s2.getBufferTimestamp i = .ok Timestamp.unset) ∧
    (∀ (mgr s1 : StdBufferCbMgr) (now : Timestamp) (f : Int) (ev : List FrameInfoType) (r : Bool),
      mgr.newFrameReady now cb f = .ok (s1, ev, r) →
      ∀ j : Nat, (j : Int) ≠ f % mgr.getNbBuffers → s1.m_ts_list[j]? = mgr.m_ts_list[j]?) := by
  constructor
  · intro alloc_mgr before s0 env n g later i hempty hreach hok hkeep hvalid hi0 hi1 _
    have hnew : TsUnset (StdBufferCbMgr.new alloc_mgr) := by
      have hts : (StdBufferCbMgr.new alloc_mgr).m_ts_list = [] := by
        cases alloc_mgr <;> rfl
      have hlen : (StdBufferCbMgr.new alloc_mgr).m_alloc_mgr.m_buffer_list.length = 0 := by
        unfold StdBufferCbMgr.getNbBuffers SoftBufferAllocMgr.getNbBuffers at hempty
        omega
      unfold TsUnset
      rw [hts, hlen]
      rfl
    have hinv0 : TsUnset s0 := tsUnset_run cb before (StdBufferCbMgr.new alloc_mgr) s0 hnew hreach
    have hinv1 : TsUnset (s0.allocBuffers env n g).1 := tsUnset_alloc env s0 n g hinv0
    have hnb : (s0.allocBuffers env n g).1.getNbBuffers = n := std_alloc_ok_nb env s0 n g hok
    obtain ⟨s2, hrun, hp, ht⟩ := run_keeps cb later (s0.allocBuffers env n g).1
      (by rw [hnb]; omega) hkeep hvalid
    refine ⟨s2, hrun, getBufferTimestamp_unset s2 i ?_ hi0 ?_⟩
    · unfold TsUnset
      rw [ht, hp]
      exact hinv1
    · unfold StdBufferCbMgr.getNbBuffers
      rw [hp]
      unfold StdBufferCbMgr.getNbBuffers at hnb
      rw [hnb]
      exact hi1
  · intro mgr s1 now f ev r h j _
    rw [newFrameReady_state now cb mgr s1 f ev r h]

/-- The scenario of the spec on a manager that owns its pool: four buffers of 1024 bytes, then
`newFrameReady(0)`, `(1)` and `(4)` with callbacks active; `getBufferTimestamp(2)` is unset. -/
theorem scenario_slot_two_unset :
    ∃ s2, StdBufferCbMgr.run acceptAll
        ((StdBufferCbMgr.new none).allocBuffers sampleEnv 4 (.obj sampleDim)).1 scenarioCalls =
        some s2 ∧
      s2.getBufferTimestamp 2 = .ok Timestamp.unset :=
  (untargeted_slot_unset_of_empty_pool acceptAll).1 none [] (StdBufferCbMgr.new none) sampleEnv 4
    (.obj sampleDim) scenarioCalls 2 (by decide) rfl (by decide) (by decide) (by decide) (by decide) (by decide)
    (by decide)

/-- C8, the code at a failing input: a manager is constructed over a borrowed pool that holds
two buffers of 1024 bytes. `allocBuffers(2, g)` with that geometry returns normally by the
early return, which leaves the timestamp list empty; callbacks are switched on and
`newFrameReady(0)` arrives. No call has targeted slot 1, yet `getBufferTimestamp(1)` indexes an
empty vector: it is undefined, not the unset timestamp. -/
theorem C8_borrowed_pool_slot_undefined :
    (borrowedMgr.allocBuffers sampleEnv 2 (.obj sampleDim)).2 = .ok () ∧
    (borrowedMgr.allocBuffers sampleEnv 2 (.obj sampleDim)).1.getNbBuffers = 2 ∧
    (∀ c ∈ borrowedCalls, c.targets 2 1 = false) ∧
    StdBufferCbMgr.run acceptAll (borrowedMgr.allocBuffers sampleEnv 2 (.obj sampleDim)).1
        borrowedCalls =
      some (borrowedMgr.setFrameCallbackActive true) ∧
    (borrowedMgr.setFrameCallbackActive true).getBufferTimestamp 1 = .undefined ∧
    (borrowedMgr.setFrameCallbackActive true).getBufferTimestamp 1 ≠ .ok Timestamp.unset := by
  decide

/-! ## Release and out-of-range indices -/

/-- C9: `releaseBuffers` cannot fail and, from every state, leaves the empty state: no
buffers and the default geometry, and for `StdBufferCbMgr` an empty timestamp list as well.
Releasing twice gives the same state as releasing once. -/
theorem C9_release_empty_idempotent (pool : SoftBufferAllocMgr) (mgr : StdBufferCbMgr) :
    (pool.releaseBuffers.getNbBuffers = 0 ∧
      pool.releaseBuffers.getFrameDim = FrameDim.unset ∧
      pool.releaseBuffers.releaseBuffers = pool.releaseBuffers) ∧
    (mgr.releaseBuffers.getNbBuffers = 0 ∧
      mgr.releaseBuffers.getFrameDim = FrameDim.unset ∧
      mgr.releaseBuffers.m_ts_list = [] ∧
      mgr.releaseBuffers.releaseBuffers = mgr.releaseBuffers) :=
  ⟨⟨rfl, rfl, rfl⟩, rfl, rfl, rfl, rfl⟩

theorem soft_getBufferPtr_out_of_range (pool : SoftBufferAllocMgr) (i : Int)
    (hi : i < 0 ∨ pool.getNbBuffers ≤ i) : pool.getBufferPtr i = .undefined := by
  unfold SoftBufferAllocMgr.getBufferPtr
  by_cases h0 : 0 ≤ i
  · have hge : pool.m_buffer_list.length ≤ i.toNat := by
      unfold SoftBufferAllocMgr.getNbBuffers at hi
      omega
    rw [if_pos h0, List.getElem?_eq_none hge]
  · rw [if_neg h0]

/-- C10, as stated, fails: on a pool just constructed or just released, and on a manager
just constructed, index 0 is out of range, yet `getBufferPtr(0)` and `getBufferTimestamp(0)`
raise nothing: the vector is indexed unchecked and the behaviour is undefined. -/
theorem C10_counterexample :
    SoftBufferAllocMgr.new.getNbBuffers = 0 ∧
    SoftBufferAllocMgr.new.getBufferPtr 0 = .undefined ∧
    ¬ (∃ e, SoftBufferAllocMgr.new.getBufferPtr 0 = .raise e) ∧
    samplePool.releaseBuffers.getBufferPtr 0 = .undefined ∧
    ¬ (∃ e, samplePool.releaseBuffers.getBufferPtr 0 = .raise e) ∧
    (StdBufferCbMgr.new none).getBufferTimestamp 0 = .undefined ∧
    ¬ (∃ e, (StdBufferCbMgr.new none).getBufferTimestamp 0 = .raise e) := by
  refine ⟨rfl, rfl, ?_, rfl, ?_, rfl, ?_⟩ <;>
  · rintro ⟨e, he⟩
    cases he

/-- C10, amended: for every state and every index outside `[0, getNbBuffers())`,
`getBufferPtr(index)` is undefined behaviour, for the pool and for the manager, and raises
nothing; so is `getBufferTimestamp(index)` whenever the timestamp list is as long as the
buffer list. In particular every `getBufferPtr` call after `releaseBuffers()` is undefined. -/
theorem C10_out_of_range_undefined (pool : SoftBufferAllocMgr) (mgr : StdBufferCbMgr) (i : Int) :
    ((i < 0 ∨ pool.getNbBuffers ≤ i) → pool.getBufferPtr i = .undefined) ∧
    ((i < 0 ∨ mgr.getNbBuffers ≤ i) → mgr.getBufferPtr i = .undefined) ∧
    ((mgr.m_ts_list.length : Int) = mgr.getNbBuffers → (i < 0 ∨ mgr.getNbBuffers ≤ i) →
      mgr.getBufferTimestamp i = .undefined) ∧
    pool.releaseBuffers.getBufferPtr i = .undefined ∧
    mgr.releaseBuffers.getBufferPtr i = .undefined := by
  refine ⟨soft_getBufferPtr_out_of_range pool i, soft_getBufferPtr_out_of_range mgr.m_alloc_mgr i,
    ?_, ?_, ?_⟩
  · intro hlen hi
    unfold StdBufferCbMgr.getBufferTimestamp
    by_cases h0 : 0 ≤ i
    · have hge : mgr.m_ts_list.length ≤ i.toNat := by omega
      rw [if_pos h0, List.getElem?_eq_none hge]
    · rw [if_neg h0]
  · apply soft_getBufferPtr_out_of_range
    by_cases h0 : 0 ≤ i
    · exact Or.inr h0
    · exact Or.inl (by omega)
  · apply soft_getBufferPtr_out_of_range
    by_cases h0 : 0 ≤ i
    · exact Or.inr h0
    · exact Or.inl (by omega)

/-- An instance of amended C10: on a manager with four buffers and four timestamps, the
indices 4 and -1 are out of range. -/
theorem C10_out_of_range_undefined_witness :
    readyMgr.m_alloc_mgr.getBufferPtr 4 = .undefined ∧
    readyMgr.getBufferPtr (-1) = .undefined ∧
    readyMgr.getBufferTimestamp 4 = .undefined :=
  ⟨(C10_out_of_range_undefined readyMgr.m_alloc_mgr readyMgr 4).1 (Or.inr (by decide)),
   (C10_out_of_range_undefined readyMgr.m_alloc_mgr readyMgr (-1)).2.1 (Or.inl (by decide)),
   (C10_out_of_range_undefined readyMgr.m_alloc_mgr readyMgr 4).2.2.1 (by decide)
     (Or.inr (by decide))⟩

/-! ## The memory budget -/

theorem wrapLL_of_range (x : Int) (h0 : 0 ≤ x) (h1 : x < 9223372036854775808) : wrapLL x = x := by
  unfold wrapLL
  omega

theorem wrapInt_of_range (x : Int) (h0 : -2147483648 ≤ x) (h1 : x ≤ 2147483647) :
    wrapInt x = x := by
  unfold wrapInt
  omega

theorem wrapInt_le (x : Int) : wrapInt x ≤ INT_MAX := by
  unfold wrapInt INT_MAX
  omega

/-- When the product `totalram * mem_unit` fits a `long long`, `tot_mem` is that product. -/
theorem tot_mem_eq (si : SysInfo) (h : si.totalMemory < 9223372036854775808) :
    wrapLL (wrapLL (si.totalram : Int) * (si.mem_unit : Int)) = (si.totalMemory : Int) := by
  unfold SysInfo.totalMemory at *
  rcases Nat.eq_zero_or_pos si.mem_unit with hz | hpos
  · rw [hz]
    simp [wrapLL]
  · have hle : si.totalram ≤ si.totalram * si.mem_unit := Nat.le_mul_of_pos_right _ hpos
    have h1 : wrapLL (si.totalram : Int) = (si.totalram : Int) :=
      wrapLL_of_range _ (by omega) (by omega)
    rw [h1, ← Int.ofNat_mul]
    exact wrapLL_of_range _ (by omega) (by omega)

/-- The value of `getMaxNbBuffers` when the total memory fits a `long long`: an error when
the count of whole frames exceeds `INT_MAX`, and three quarters of that count otherwise. -/
theorem getMaxNbBuffers_eq (env : Env) (si : SysInfo) (g : FrameDim)
    (hsys : env.sysinfo = some si) (hM : si.totalMemory < 9223372036854775808)
    (hsize : 0 < g.getMemSize) :
    SoftBufferAllocMgr.getMaxNbBuffers env g =
      if (si.totalMemory : Int) / g.getMemSize > INT_MAX then
        .raise (.hw .Error "Too much memory to be described with the given mem_unit")
      else .ok (3 * ((si.totalMemory : Int) / g.getMemSize) / 4) := by
  have h1 : ¬ g.getMemSize ≤ 0 := by omega
  have h2 : ¬ g.getMemSize < 0 := by omega
  have h3 : ¬ g.getMemSize = 0 := by omega
  have h4 : ¬ g.getMemSize = -1 := by omega
  have hq0 : 0 ≤ (si.totalMemory : Int) / g.getMemSize :=
    Int.ediv_nonneg (Int.ofNat_nonneg _) (by omega)
  have htd : Int.tdiv (si.totalMemory : Int) g.getMemSize = (si.totalMemory : Int) / g.getMemSize :=
    Int.tdiv_eq_ediv (Int.ofNat_nonneg _) (by omega)
  simp only [SoftBufferAllocMgr.getMaxNbBuffers, SoftBufferAllocMgr.getSystemMem, h1, h2, h3, h4,
    if_false, hsys, tot_mem_eq si hM, and_false, or_false, htd]
  by_cases hbig : (si.totalMemory : Int) / g.getMemSize > INT_MAX
  · simp only [hbig, if_true]
  · simp only [hbig, if_false]
    have hq1 : (si.totalMemory : Int) / g.getMemSize ≤ 2147483647 := by
      unfold INT_MAX at hbig
      omega
    rw [wrapInt_of_range _ (by omega) hq1, wrapLL_of_range _ (by omega) (by omega),
      Int.tdiv_eq_ediv (by omega) (by decide), wrapInt_of_range _ (by omega) (by omega),
      Int.mul_comm _ 3]

theorem ediv_antitone (M : Nat) (s1 s2 : Int) (h1 : 0 < s1) (h2 : s1 ≤ s2) :
    (M : Int) / s2 ≤ (M : Int) / s1 := by
  obtain ⟨a, rfl⟩ := Int.eq_ofNat_of_zero_le (le_of_lt h1)
  obtain ⟨b, rfl⟩ := Int.eq_ofNat_of_zero_le (le_trans (le_of_lt h1) h2)
  rw [← Int.ofNat_ediv, ← Int.ofNat_ediv]
  exact Int.ofNat_le.mpr (Nat.div_le_div_left (by omega) (by omega))

/-! ## Error kinds of the validation -/

theorem kind_cases (e : Exception) : e.kind = .InvalidValue ∨ e.kind = .Error := by
  cases e with
  | hw t msg => cases t <;> simp [Exception.kind]
  | bad_alloc => simp [Exception.kind]

theorem wrapLL_congr (x k : Int) : wrapLL (x + 18446744073709551616 * k) = wrapLL x := by
  unfold wrapLL
  rw [show x + 18446744073709551616 * k + 9223372036854775808 =
    x + 9223372036854775808 + 18446744073709551616 * k by ring, Int.add_mul_emod_self_left]

/-- The variable `tot_mem` depends on the product `totalram * mem_unit` only. -/
theorem tot_mem_product (si : SysInfo) :
    wrapLL (wrapLL (si.totalram : Int) * (si.mem_unit : Int)) = wrapLL (si.totalMemory : Int) := by
  have h1 : wrapLL (si.totalram : Int) = (si.totalram : Int) +
      18446744073709551616 * (-(((si.totalram : Int) + 9223372036854775808) /
        18446744073709551616)) := by
    unfold wrapLL
    omega
  rw [h1, show ((si.totalram : Int) + 18446744073709551616 *
      (-(((si.totalram : Int) + 9223372036854775808) / 18446744073709551616))) *
        (si.mem_unit : Int) =
      (si.totalram : Int) * (si.mem_unit : Int) + 18446744073709551616 *
        (-(((si.totalram : Int) + 9223372036854775808) / 18446744073709551616) *
          (si.mem_unit : Int)) by ring, wrapLL_congr]
  unfold SysInfo.totalMemory
  push_cast
  rfl

theorem getMaxNbBuffers_congr (env env2 : Env) (si si2 : SysInfo) (g : FrameDim)
    (h1 : env.sysinfo = some si) (h2 : env2.sysinfo = some si2)
    (hM : si.totalMemory = si2.totalMemory) (hsize : 0 < g.getMemSize) :
    SoftBufferAllocMgr.getMaxNbBuffers env g = SoftBufferAllocMgr.getMaxNbBuffers env2 g := by
  have hz : ¬ g.getMemSize = 0 := by omega
  simp only [SoftBufferAllocMgr.getMaxNbBuffers, SoftBufferAllocMgr.getSystemMem, h1, h2,
    tot_mem_product, hM, hz, if_false]

theorem getMaxNbBuffers_invalid_dim (env : Env) (g : FrameDim) (hsize : g.getMemSize ≤ 0) :
    SoftBufferAllocMgr.getMaxNbBuffers env g = .raise (.hw .InvalidValue "Invalid FrameDim") := by
  simp [SoftBufferAllocMgr.getMaxNbBuffers, hsize]

/-- What a step of a pool is: the state that the call leaves. -/
theorem soft_step_eq (s s1 : SoftBufferAllocMgr) (c : PoolCall) (h : s.step c = some s1) :
    (∃ env n r, c = .allocBuffers env n r ∧ s1 = (s.allocBuffers env n r).1) ∨
    (c = .releaseBuffers ∧ s1 = s.releaseBuffers) := by
  cases c with
  | allocBuffers env n g =>
    refine Or.inl ⟨env, n, g, rfl, ?_⟩
    simp only [SoftBufferAllocMgr.step] at h
    generalize s.allocBuffers env n g = r at h
    obtain ⟨s2, res⟩ := r
    cases res <;> simp only [Option.some.injEq] at h
    · exact h.symm
    · exact h.symm
    · cases h
  | releaseBuffers =>
    simp only [SoftBufferAllocMgr.step, Option.some.injEq] at h
    exact Or.inr ⟨rfl, h.symm⟩

theorem soft_run_invariant (P : SoftBufferAllocMgr → Prop) (Q : PoolCall → Prop)
    (hstep : ∀ s s1 c, P s → Q c → s.step c = some s1 → P s1) (calls : List PoolCall) :
    ∀ s s1 : SoftBufferAllocMgr, P s → (∀ c ∈ calls, Q c) → s.run calls = some s1 → P s1 := by
  induction calls with
  | nil =>
    intro s s1 h _ hr
    simp only [SoftBufferAllocMgr.run, Option.some.injEq] at hr
    rw [← hr]; exact h
  | cons c cs ih =>
    intro s s1 h hq hr
    simp only [SoftBufferAllocMgr.run] at hr
    cases hs : s.step c with
    | none => rw [hs] at hr; cases hr
    | some s2 =>
      rw [hs] at hr
      exact ih s2 s1 (hstep s s2 c h (hq c (List.mem_cons_self c cs)) hs)
        (fun c1 hc1 => hq c1 (List.mem_cons_of_mem _ hc1)) hr

theorem withinBudget_step (M : Nat) (s s1 : SoftBufferAllocMgr) (c : PoolCall)
    (h : PoolWithinBudget M s) (hc : c.underMemory M) (hs : s.step c = some s1) :
    PoolWithinBudget M s1 := by
  rcases soft_step_eq s s1 c hs with ⟨env, n, g, rfl, rfl⟩ | ⟨_, rfl⟩
  · rcases soft_alloc_cases env s n g with
      ⟨_, h1⟩ | ⟨_, _, h1⟩ | ⟨_, _, e, h1⟩ | ⟨hpos, _, bl, m, hmax, hn1, hn2, h1, hlen, _⟩
    · rw [h1]; exact h
    · rw [h1]; exact h
    · rw [h1]; exact Or.inl rfl
    · rw [h1]
      obtain ⟨si, hsi, hMi⟩ := hc
      refine Or.inr ⟨hpos, env, si, m, hsi, hMi, hmax, ?_, ?_⟩
      · show 1 ≤ (bl.length : Int)
        omega
      · show (bl.length : Int) ≤ m
        omega
  · exact Or.inl rfl

/-- C11, as stated, fails: `allocBuffers(5, g)` and `getMaxNbBuffers(g)` for a geometry `g` of
zero bytes raise a `LIMA_HW_EXC` of type `InvalidValue`, the type that this file also uses for
a wrong count and for an unset start timestamp; the kind is not `InvalidGeometry`. -/
theorem C11_counterexample :
    emptyDim.getMemSize ≤ 0 ∧
    (samplePool.allocBuffers sampleEnv 5 (.obj emptyDim)).2 =
      .raise (.hw .InvalidValue "Invalid FrameDim") ∧
    ¬ (samplePool.allocBuffers sampleEnv 5 (.obj emptyDim)).2.failsWith .InvalidGeometry ∧
    SoftBufferAllocMgr.getMaxNbBuffers sampleEnv emptyDim =
      .raise (.hw .InvalidValue "Invalid FrameDim") ∧
    ¬ (SoftBufferAllocMgr.getMaxNbBuffers sampleEnv emptyDim).failsWith .InvalidGeometry := by
  refine ⟨by decide, by decide, ?_, by decide, ?_⟩ <;>
  · rintro ⟨e, _, hk⟩
    rcases kind_cases e with h | h <;>
    · rw [h] at hk
      cases hk

/-- C11, amended: for every geometry `g` whose byte size is not positive, every `n` and every
state, `getMaxNbBuffers(g)` and `allocBuffers(n, g)`, of the pool and of the manager, raise the
exception `LIMA_HW_EXC(InvalidValue, "Invalid FrameDim")`, whose kind is `InvalidValue`. The
arguments `r` and `rm` are any references that read `g` on entry: objects, or the geometry of
the pool itself. -/
theorem C11_invalid_dim_raises (env : Env) (pool : SoftBufferAllocMgr) (mgr : StdBufferCbMgr)
    (n : Int) (g : FrameDim) (r rm : FrameDimRef) (hsize : g.getMemSize ≤ 0)
    (hr : r.read pool = g) (hrm : rm.read mgr.m_alloc_mgr = g) :
    SoftBufferAllocMgr.getMaxNbBuffers env g = .raise (.hw .InvalidValue "Invalid FrameDim") ∧
    mgr.getMaxNbBuffers env g = .raise (.hw .InvalidValue "Invalid FrameDim") ∧
    (pool.allocBuffers env n r).2 = .raise (.hw .InvalidValue "Invalid FrameDim") ∧
    (mgr.allocBuffers env n rm).2 = .raise (.hw .InvalidValue "Invalid FrameDim") ∧
    (SoftBufferAllocMgr.getMaxNbBuffers env g).failsWith .InvalidValue ∧
    (pool.allocBuffers env n r).2.failsWith .InvalidValue ∧
    (mgr.allocBuffers env n rm).2.failsWith .InvalidValue := by
  have h1 := getMaxNbBuffers_invalid_dim env g hsize
  have h2 : (pool.allocBuffers env n r).2 = .raise (.hw .InvalidValue "Invalid FrameDim") := by
    rw [soft_alloc_invalid_ref env pool n r (by rw [hr]; exact hsize)]
  have h3 : (mgr.allocBuffers env n rm).2 = .raise (.hw .InvalidValue "Invalid FrameDim") := by
    rw [std_alloc_invalid_ref env mgr n rm (by rw [hrm]; exact hsize)]
  exact ⟨h1, h1, h2, h3, ⟨_, h1, rfl⟩, ⟨_, h2, rfl⟩, ⟨_, h3, rfl⟩⟩

/-- An instance of amended C11: `allocBuffers(5, g)` with `g` of zero bytes. -/
theorem C11_invalid_dim_raises_witness :
    (samplePool.allocBuffers sampleEnv 5 (.obj emptyDim)).2 =
      .raise (.hw .InvalidValue "Invalid FrameDim") ∧
    (sampleMgr.allocBuffers sampleEnv 5 (.obj emptyDim)).2 =
      .raise (.hw .InvalidValue "Invalid FrameDim") :=
  ⟨(C11_invalid_dim_raises sampleEnv samplePool sampleMgr 5 emptyDim (.obj emptyDim)
      (.obj emptyDim) (by decide) rfl rfl).2.2.1,
   (C11_invalid_dim_raises sampleEnv samplePool sampleMgr 5 emptyDim (.obj emptyDim)
      (.obj emptyDim) (by decide) rfl rfl).2.2.2.1⟩

/-- C12, as stated, fails: on an empty pool `allocBuffers(0, g)` with `g` of 1024 bytes raises
a `LIMA_HW_EXC` of type `InvalidValue`, not an exception of a kind `InvalidCount`. Besides, on
a pool that holds three buffers of a geometry whose budget is twelve, the call on the pool's
own geometry `allocBuffers(13, getFrameDim())` is refused for the geometry and not for the
count, and `allocBuffers(5, getFrameDim())` is refused although 5 is within the budget. -/
theorem C12_counterexample :
    0 < sampleDim.getMemSize ∧
    (SoftBufferAllocMgr.new.allocBuffers sampleEnv 0 (.obj sampleDim)).2 =
      .raise (.hw .InvalidValue "Invalid number of buffers") ∧
    ¬ (SoftBufferAllocMgr.new.allocBuffers sampleEnv 0 (.obj sampleDim)).2.failsWith
        .InvalidCount ∧
    SoftBufferAllocMgr.new.run [.allocBuffers sampleEnv 3 (.obj sampleDim)] =
      some threeBufferPool ∧
    SoftBufferAllocMgr.getMaxNbBuffers sampleEnv threeBufferPool.getFrameDim = .ok 12 ∧
    (threeBufferPool.allocBuffers sampleEnv 13 .member).2 =
      .raise (.hw .InvalidValue "Invalid FrameDim") ∧
    (threeBufferPool.allocBuffers sampleEnv 5 .member).2 =
      .raise (.hw .InvalidValue "Invalid FrameDim") := by
  refine ⟨by decide, by decide, ?_, by decide, by decide, by decide, by decide⟩
  rintro ⟨e, _, hk⟩
  rcases kind_cases e with h | h <;>
  · rw [h] at hk
    cases hk

/-- C12, amended: take a pool in a state reached from the empty pool by `allocBuffers` and
`releaseBuffers` calls (on any references) on a machine whose total memory is fixed, a
geometry `g` of positive byte size, held in an object other than the pool's own
`m_frame_dim`, for which the memory query succeeds with the budget `m`, and let every
acquisition succeed. Then `allocBuffers(n, g)` raises
`LIMA_HW_EXC(InvalidValue, "Invalid number of buffers")` if and only if `n < 1` or `n > m`,
and it raises an exception of kind `InvalidValue` in exactly these cases. -/
theorem C12_invalid_count (si : SysInfo) (calls : List PoolCall) (pool : SoftBufferAllocMgr)
    (env : Env) (n m : Int) (g : FrameDim)
    (hcalls : ∀ c ∈ calls, c.underMemory si.totalMemory)
    (hreach : SoftBufferAllocMgr.new.run calls = some pool)
    (hsys : env.sysinfo = some si) (hsize : 0 < g.getMemSize)
    (hmax : SoftBufferAllocMgr.getMaxNbBuffers env g = .ok m)
    (hres : env.reserve_ok = true)
    (hnew : ∀ j : Nat, (j : Int) < n → (env.new_char j).isSome = true) :
    ((pool.allocBuffers env n (.obj g)).2 = .raise (.hw .InvalidValue "Invalid number of buffers") ↔
      (n < 1 ∨ m < n)) ∧
    ((pool.allocBuffers env n (.obj g)).2.failsWith .InvalidValue ↔ (n < 1 ∨ m < n)) := by
  have hinv : PoolWithinBudget si.totalMemory pool :=
    soft_run_invariant (PoolWithinBudget si.totalMemory) (fun c => c.underMemory si.totalMemory)
      (withinBudget_step si.totalMemory) calls SoftBufferAllocMgr.new pool (Or.inl rfl) hcalls
      hreach
  have hsame_range : (g = pool.m_frame_dim ∧ n = pool.getNbBuffers) → 1 ≤ n ∧ n ≤ m := by
    rintro ⟨hg, hn⟩
    rcases hinv with h0 | ⟨_, env0, si0, m0, hsys0, hM0, hmax0, h1, h2⟩
    · rw [hg, h0] at hsize
      exact absurd hsize (by decide)
    · rw [← hg, getMaxNbBuffers_congr env0 env si0 si g hsys0 hsys hM0 hsize, hmax] at hmax0
      simp only [Result.ok.injEq] at hmax0
      omega
  have hout : (n < 1 ∨ m < n) →
      (pool.allocBuffers env n (.obj g)).2 = .raise (.hw .InvalidValue "Invalid number of buffers") := by
    intro hn
    have hdiff : ¬ (g = pool.m_frame_dim ∧ n = pool.getNbBuffers) := by
      intro h
      have := hsame_range h
      omega
    rw [soft_alloc_count env pool n m g hsize hdiff hmax hn]
  have hin : ¬ (n < 1 ∨ m < n) → (pool.allocBuffers env n (.obj g)).2 = .ok () := by
    intro hn
    by_cases hsame : g = pool.m_frame_dim ∧ n = pool.getNbBuffers
    · rw [soft_alloc_same env pool n g hsize hsame.1 hsame.2]
    · obtain ⟨bl, h1, _⟩ := soft_alloc_fresh env pool n m g hsize hsame hmax (by omega) (by omega)
        hres hnew
      rw [h1]
  constructor
  · constructor
    · intro h
      by_contra hn
      rw [hin hn] at h
      cases h
    · exact hout
  · constructor
    · rintro ⟨e, he, _⟩
      by_contra hn
      rw [hin hn] at he
      cases he
    · intro hn
      exact ⟨_, hout hn, rfl⟩

/-- An instance of amended C12: after an allocation and a release the pool is empty, and
`allocBuffers(0, g)` is refused for its count. -/
theorem C12_invalid_count_witness :
    (samplePool.releaseBuffers.allocBuffers sampleEnv 0 (.obj sampleDim)).2 =
      .raise (.hw .InvalidValue "Invalid number of buffers") :=
  (C12_invalid_count ⟨16, 1024⟩ [.allocBuffers sampleEnv 3 (.obj sampleDim), .releaseBuffers]
    samplePool.releaseBuffers sampleEnv 0 12 sampleDim
    (by
      intro c hc
      simp only [List.mem_cons, List.mem_singleton, List.not_mem_nil, or_false] at hc
      rcases hc with rfl | rfl
      · exact ⟨⟨16, 1024⟩, rfl, rfl⟩
      · trivial)
    (by decide) rfl (by decide) (by decide) rfl (fun _ _ => rfl)).1.2 (Or.inl (by decide))

/-! ## The value of the budget -/

theorem totalMemory_fits (si : SysInfo) (g : FrameDim) (hsize : 0 < g.getMemSize)
    (hint : g.getMemSize ≤ INT_MAX) (hfit : (si.totalMemory : Int) / g.getMemSize ≤ INT_MAX) :
    si.totalMemory < 9223372036854775808 := by
  have h1 := Int.lt_ediv_add_one_mul_self (si.totalMemory : Int) hsize
  have hq0 : 0 ≤ (si.totalMemory : Int) / g.getMemSize :=
    Int.ediv_nonneg (Int.ofNat_nonneg _) (by omega)
  unfold INT_MAX at hint hfit
  have h2 : ((si.totalMemory : Int) / g.getMemSize + 1) * g.getMemSize ≤
      2147483648 * 2147483647 :=
    Int.mul_le_mul (by omega) hint (by omega) (by decide)
  have h3 : (si.totalMemory : Int) < 9223372036854775808 :=
    lt_of_lt_of_le h1 (le_trans h2 (by decide))
  exact_mod_cast h3

theorem getMaxNbBuffers_ok_le (env : Env) (g : FrameDim) (m : Int)
    (h : SoftBufferAllocMgr.getMaxNbBuffers env g = .ok m) : m ≤ INT_MAX := by
  unfold SoftBufferAllocMgr.getMaxNbBuffers at h
  by_cases hsize : g.getMemSize ≤ 0
  · simp only [hsize, if_true] at h
    cases h
  · simp only [hsize, if_false] at h
    cases hs : SoftBufferAllocMgr.getSystemMem env g.getMemSize with
    | ok v =>
      rw [hs] at h
      simp only [Result.ok.injEq] at h
      rw [← h]
      exact wrapInt_le _
    | raise e => rw [hs] at h; cases h
    | undefined => rw [hs] at h; cases h

/-- C13: when `sysinfo` reports the total memory `M = totalram * mem_unit` and the geometry has
the frame size `s` with `0 < s` (an `int`) and `floor(M / s) ≤ INT_MAX`, `getMaxNbBuffers`
returns `floor(3 * floor(M / s) / 4)`, for the pool and for the manager. -/
theorem C13_max_buffers_value (env : Env) (si : SysInfo) (mgr : StdBufferCbMgr) (g : FrameDim)
    (hsys : env.sysinfo = some si) (hsize : 0 < g.getMemSize) (hint : g.getMemSize ≤ INT_MAX)
    (hfit : (si.totalMemory : Int) / g.getMemSize ≤ INT_MAX) :
    SoftBufferAllocMgr.getMaxNbBuffers env g =
      .ok (3 * ((si.totalMemory : Int) / g.getMemSize) / 4) ∧
    mgr.getMaxNbBuffers env g = .ok (3 * ((si.totalMemory : Int) / g.getMemSize) / 4) := by
  have hM := totalMemory_fits si g hsize hint hfit
  have h := getMaxNbBuffers_eq env si g hsys hM hsize
  rw [if_neg (not_lt.mpr hfit)] at h
  exact ⟨h, h⟩

/-- An instance of C13: 16 KiB of memory and frames of 1024 bytes give 16 whole frames and a
budget of 12 buffers. -/
theorem C13_max_buffers_value_witness :
    SoftBufferAllocMgr.getMaxNbBuffers sampleEnv sampleDim = .ok 12 :=
  (C13_max_buffers_value sampleEnv ⟨16, 1024⟩ sampleMgr sampleDim rfl (by decide) (by decide)
    (by decide)).1

/-- C14, the code at a failing input: `sysinfo` reports `totalram = 2^63` in units of one
byte, which its `unsigned long` field can hold. The conversion to `long long` makes `tot_mem`
negative, the test `mem_blocks > INT_MAX` does not fire, and the values converted to `int`
are not ordered: `getMaxNbBuffers` returns 0 for frames of 4 bytes and 1288490189 for the
larger frames of 5 bytes. -/
theorem C14_huge_memory_not_antitone :
    hugeEnv.sysinfo = some ⟨9223372036854775808, 1⟩ ∧
    (9223372036854775808 : Nat) < 18446744073709551616 ∧
    SoftBufferAllocMgr.getMaxNbBuffers hugeEnv ⟨1, 4⟩ = .ok 0 ∧
    SoftBufferAllocMgr.getMaxNbBuffers hugeEnv ⟨1, 5⟩ = .ok 1288490189 ∧
    ¬ ((1288490189 : Int) ≤ 0) := by
  decide

/-- On a machine whose total memory `totalram * mem_unit` is below 2^63 bytes, the budget
does not grow with the frame size: for two geometries with `0 < s1 ≤ s2`, if `getMaxNbBuffers` succeeds on both then its value
for the larger frame size is not above its value for the smaller one, and if it succeeds for
the smaller frame size then it succeeds for the larger one. -/
theorem max_buffers_antitone_of_fits (env : Env) (si : SysInfo) (g1 g2 : FrameDim)
    (hsys : env.sysinfo = some si) (hM : si.totalMemory < 9223372036854775808)
    (h1 : 0 < g1.getMemSize) (h2 : g1.getMemSize ≤ g2.getMemSize) :
    (∀ v1 v2, SoftBufferAllocMgr.getMaxNbBuffers env g1 = .ok v1 →
      SoftBufferAllocMgr.getMaxNbBuffers env g2 = .ok v2 → v2 ≤ v1) ∧
    (∀ v1, SoftBufferAllocMgr.getMaxNbBuffers env g1 = .ok v1 →
      ∃ v2, SoftBufferAllocMgr.getMaxNbBuffers env g2 = .ok v2) := by
  have e1 := getMaxNbBuffers_eq env si g1 hsys hM h1
  have e2 := getMaxNbBuffers_eq env si g2 hsys hM (by omega)
  have hq := ediv_antitone si.totalMemory g1.getMemSize g2.getMemSize h1 h2
  generalize (si.totalMemory : Int) / g1.getMemSize = q1 at e1 hq
  generalize (si.totalMemory : Int) / g2.getMemSize = q2 at e2 hq
  rw [e1, e2]
  constructor
  · intro v1 v2 hv1 hv2
    split at hv1
    · cases hv1
    · split at hv2
      · cases hv2
      · simp only [Result.ok.injEq] at hv1 hv2
        omega
  · intro v1 hv1
    split at hv1
    · cases hv1
    · rename_i hsmall
      have hsmall2 : ¬ q2 > INT_MAX := by
        intro hbig
        exact hsmall (lt_of_lt_of_le hbig hq)
      exact ⟨_, by rw [if_neg hsmall2]⟩

theorem sum_sizes (fs : Int) (bl : List HeapBlock) (h : ∀ b ∈ bl, b.size = fs) :
    (bl.map (fun b => b.size)).sum = (bl.length : Int) * fs := by
  induction bl with
  | nil => simp
  | cons b rest ih =>
    have hb : b.size = fs := h b (List.mem_cons_self b rest)
    have hrest := ih (fun c hc => h c (List.mem_cons_of_mem _ hc))
    simp only [List.map_cons, List.sum_cons, List.length_cons, hb, hrest]
    push_cast
    ring

/-- C15: whatever memory `M = totalram * mem_unit` the machine reports, when
`SoftBufferAllocMgr::allocBuffers(n, g)` returns normally after acquiring buffers (the frame
size `s` being an `int`), the pool holds `n` buffers, `n * s` bytes in all, and
`4 * n * s ≤ 3 * M`: never more than three quarters of the total memory. The argument `r` is
any reference that reads `g` on entry. -/
theorem C15_memory_budget (env : Env) (si : SysInfo) (pool : SoftBufferAllocMgr) (n : Int)
    (g : FrameDim) (r : FrameDimRef) (hr : r.read pool = g)
    (hsys : env.sysinfo = some si) (hint : g.getMemSize ≤ INT_MAX)
    (hacq : ¬ (g = pool.m_frame_dim ∧ n = pool.getNbBuffers))
    (hok : (pool.allocBuffers env n r).2 = .ok ()) :
    (pool.allocBuffers env n r).1.getNbBuffers = n ∧
    (pool.allocBuffers env n r).1.heldBytes = n * g.getMemSize ∧
    4 * n * g.getMemSize ≤ 3 * (si.totalMemory : Int) := by
  have hcases := soft_alloc_cases env pool n r
  rw [hr] at hcases
  rcases hcases with
    ⟨_, h⟩ | ⟨_, hsame, _⟩ | ⟨_, _, e, h⟩ | ⟨hsize, _, bl, m, hmax, hn1, hn2, h, hlen, hsz⟩
  · rw [h] at hok; cases hok
  · exact absurd hsame hacq
  · rw [h] at hok; cases hok
  · rw [h]
    refine ⟨hlen, ?_, ?_⟩
    · show (bl.map (fun b => b.size)).sum = n * g.getMemSize
      rw [sum_sizes g.getMemSize bl hsz, hlen]
    · by_cases hM : si.totalMemory < 9223372036854775808
      · have e1 := getMaxNbBuffers_eq env si g hsys hM hsize
        have hq := Int.ediv_mul_le (si.totalMemory : Int) (ne_of_gt hsize)
        generalize (si.totalMemory : Int) / g.getMemSize = q at e1 hq
        rw [hmax] at e1
        split at e1
        · cases e1
        · simp only [Result.ok.injEq] at e1
          have h4 : 4 * n ≤ 3 * q := by omega
          have h5 : 4 * n * g.getMemSize ≤ 3 * q * g.getMemSize :=
            Int.mul_le_mul_of_nonneg_right h4 (le_of_lt hsize)
          have h6 : 3 * q * g.getMemSize = 3 * (q * g.getMemSize) := by ring
          omega
      · have hm := getMaxNbBuffers_ok_le env g m hmax
        unfold INT_MAX at hm hint
        have h7 : n * g.getMemSize ≤ 2147483647 * 2147483647 :=
          Int.mul_le_mul (by omega) hint (le_of_lt hsize) (by decide)
        have h8 : 4 * n * g.getMemSize = 4 * (n * g.getMemSize) := by ring
        have h9 : (9223372036854775808 : Int) ≤ (si.totalMemory : Int) := by
          exact_mod_cast not_lt.mp hM
        omega

/-- An instance of C15: three buffers of 1024 bytes on a machine with 16 KiB. -/
theorem C15_memory_budget_witness :
    (SoftBufferAllocMgr.new.allocBuffers sampleEnv 3 (.obj sampleDim)).1.heldBytes = 3 * 1024 ∧
    (4 * 3 * 1024 : Int) ≤ 3 * 16384 :=
  ⟨(C15_memory_budget sampleEnv ⟨16, 1024⟩ SoftBufferAllocMgr.new 3 sampleDim (.obj sampleDim)
      rfl rfl (by decide) (by decide) (by decide)).2.1,
   (C15_memory_budget sampleEnv ⟨16, 1024⟩ SoftBufferAllocMgr.new 3 sampleDim (.obj sampleDim)
      rfl rfl (by decide) (by decide) (by decide)).2.2⟩

/-- C16, the code at a failing input: `sysinfo` reports `totalram = 2^63` in units of one
byte. `tot_mem` is negative after the conversion to `long long`, so the test
`mem_blocks > INT_MAX`, which is there to raise `Error`, does not fire. For frames of 3 bytes
the count `floor(3 * floor(M / 3) / 4)` exceeds `INT_MAX`, yet `getSystemMem` returns the
wrapped value 1431655766 and `getMaxNbBuffers` returns 1073741824; for frames of 6 bytes
`getMaxNbBuffers` returns the negative value -1073741823. -/
theorem C16_huge_memory_guard_bypassed :
    hugeEnv.sysinfo = some ⟨9223372036854775808, 1⟩ ∧
    INT_MAX < 3 * ((9223372036854775808 : Int) / 3) / 4 ∧
    SoftBufferAllocMgr.getSystemMem hugeEnv 3 = .ok (1431655766, 3) ∧
    SoftBufferAllocMgr.getMaxNbBuffers hugeEnv ⟨1, 3⟩ = .ok 1073741824 ∧
    SoftBufferAllocMgr.getMaxNbBuffers hugeEnv ⟨1, 6⟩ = .ok (-1073741823) ∧
    ¬ ((0 : Int) ≤ -1073741823) := by
  decide

/-- On a machine whose total memory `M = totalram * mem_unit` is below 2^63 bytes, for every
frame size `s > 0`, `getMaxNbBuffers` raises `LIMA_HW_EXC(Error, ...)` whenever the count
`floor(3 * floor(M / s) / 4)` exceeds `INT_MAX`, and every value `v` that it returns is that
count, unchanged by the conversion to `int`, with `0 ≤ v ≤ INT_MAX`. -/
theorem max_buffers_range_of_fits (env : Env) (si : SysInfo) (g : FrameDim)
    (hsys : env.sysinfo = some si) (hM : si.totalMemory < 9223372036854775808)
    (hsize : 0 < g.getMemSize) :
    (INT_MAX < 3 * ((si.totalMemory : Int) / g.getMemSize) / 4 →
      SoftBufferAllocMgr.getMaxNbBuffers env g =
        .raise (.hw .Error "Too much memory to be described with the given mem_unit") ∧
      (SoftBufferAllocMgr.getMaxNbBuffers env g).failsWith .Error) ∧
    (∀ v, SoftBufferAllocMgr.getMaxNbBuffers env g = .ok v →
      v = 3 * ((si.totalMemory : Int) / g.getMemSize) / 4 ∧ 0 ≤ v ∧ v ≤ INT_MAX) := by
  have e1 := getMaxNbBuffers_eq env si g hsys hM hsize
  have hq0 : 0 ≤ (si.totalMemory : Int) / g.getMemSize :=
    Int.ediv_nonneg (Int.ofNat_nonneg _) (le_of_lt hsize)
  generalize (si.totalMemory : Int) / g.getMemSize = q at e1 hq0
  rw [e1]
  unfold INT_MAX
  constructor
  · intro hbig
    have hq : q > 2147483647 := by omega
    rw [if_pos hq]
    exact ⟨rfl, _, rfl, rfl⟩
  · intro v hv
    split at hv
    · cases hv
    · simp only [Result.ok.injEq] at hv
      omega

/-! ## Start timestamp, invariants and the rejected geometry -/

/-- C17: `setStartTimestamp(t)` raises `LIMA_HW_EXC(InvalidValue, ...)` if and only if `t` is
unset. When it raises, the whole state, the previous start timestamp included, is unchanged;
when it returns, the start timestamp is `t` and the pool, the timestamp list, the callback
latch and the ownership flag are unchanged. -/
theorem C17_setStartTimestamp (mgr : StdBufferCbMgr) (t : Timestamp) :
    ((mgr.setStartTimestamp t).2.failsWith .InvalidValue ↔ t.isSet = false) ∧
    ((∃ e, (mgr.setStartTimestamp t).2 = .raise e) ↔ t.isSet = false) ∧
    (t.isSet = false →
      mgr.setStartTimestamp t = (mgr, .raise (.hw .InvalidValue "Invalid start timestamp"))) ∧
    (t.isSet = true →
      (mgr.setStartTimestamp t).2 = .ok () ∧
      (mgr.setStartTimestamp t).1.m_start_ts = t ∧
      (mgr.setStartTimestamp t).1.m_alloc_mgr = mgr.m_alloc_mgr ∧
      (mgr.setStartTimestamp t).1.m_ts_list = mgr.m_ts_list ∧
      (mgr.setStartTimestamp t).1.m_fcb_act = mgr.m_fcb_act ∧
      (mgr.setStartTimestamp t).1.m_int_alloc_mgr = mgr.m_int_alloc_mgr) := by
  cases hset : t.isSet with
  | false =>
    have h : mgr.setStartTimestamp t =
        (mgr, .raise (.hw .InvalidValue "Invalid start timestamp")) := by
      simp [StdBufferCbMgr.setStartTimestamp, hset]
    rw [h]
    refine ⟨?_, ?_, ?_, ?_⟩
    · exact ⟨fun _ => rfl, fun _ => ⟨_, rfl, rfl⟩⟩
    · exact ⟨fun _ => rfl, fun _ => ⟨_, rfl⟩⟩
    · intro _
      rfl
    · intro hc
      cases hc
  | true =>
    have h : mgr.setStartTimestamp t = ({ mgr with m_start_ts := t }, .ok ()) := by
      simp [StdBufferCbMgr.setStartTimestamp, hset]
    rw [h]
    refine ⟨?_, ?_, ?_, ?_⟩
    · constructor
      · rintro ⟨e, he, _⟩
        cases he
      · intro hc
        cases hc
    · constructor
      · rintro ⟨e, he⟩
        cases he
      · intro hc
        cases hc
    · intro hc
      cases hc
    · intro _
      exact ⟨rfl, rfl, rfl, rfl, rfl, rfl⟩

/-- An instance of C17: an unset timestamp is refused and the instant 10 is recorded. -/
theorem C17_setStartTimestamp_witness :
    sampleMgr.setStartTimestamp Timestamp.unset =
      (sampleMgr, .raise (.hw .InvalidValue "Invalid start timestamp")) ∧
    (sampleMgr.setStartTimestamp (Timestamp.ofTime 10)).1.m_start_ts = Timestamp.ofTime 10 :=
  ⟨(C17_setStartTimestamp sampleMgr Timestamp.unset).2.2.1 (by decide),
   ((C17_setStartTimestamp sampleMgr (Timestamp.ofTime 10)).2.2.2 (by decide)).2.1⟩

/-- C18, the code at a failing input: a manager is constructed over a borrowed pool that
already holds two buffers of 1024 bytes. `allocBuffers(2, g)` with that geometry takes the
early return and succeeds, and afterwards the pool has two buffers while the timestamp list
is empty, so that `getBufferTimestamp(0)` indexes an empty vector. -/
theorem C18_borrowed_pool_unsized :
    borrowedMgr.m_int_alloc_mgr = false ∧
    borrowedMgr.allocBuffers sampleEnv 2 (.obj sampleDim) = (borrowedMgr, .ok ()) ∧
    (borrowedMgr.allocBuffers sampleEnv 2 (.obj sampleDim)).1.getNbBuffers = 2 ∧
    (borrowedMgr.allocBuffers sampleEnv 2 (.obj sampleDim)).1.m_ts_list.length = 0 ∧
    (borrowedMgr.allocBuffers sampleEnv 2 (.obj sampleDim)).1.getBufferTimestamp 0 = .undefined := by
  decide

theorem shape_step (s s1 : SoftBufferAllocMgr) (c : PoolCall)
    (h : PoolShape s) (_hc : True) (hs : s.step c = some s1) : PoolShape s1 := by
  rcases soft_step_eq s s1 c hs with ⟨env, n, g, rfl, rfl⟩ | ⟨_, rfl⟩
  · rcases soft_alloc_cases env s n g with
      ⟨_, h1⟩ | ⟨_, _, h1⟩ | ⟨_, _, e, h1⟩ | ⟨_, _, bl, m, _, hn1, _, h1, hlen, hsz⟩
    · rw [h1]; exact h
    · rw [h1]; exact h
    · rw [h1]; exact Or.inl ⟨rfl, rfl⟩
    · rw [h1]
      refine Or.inr ⟨?_, hsz⟩
      show 1 ≤ (bl.length : Int)
      omega
  · exact Or.inl ⟨rfl, rfl⟩

/-- C19: in every state that a `SoftBufferAllocMgr` reaches from the empty pool by a sequence
of `allocBuffers` calls, whether they return or raise, and `releaseBuffers` calls, either the
pool is empty, with the default geometry and no buffers, or it holds at least one buffer and
every buffer has exactly `getFrameDim().getMemSize()` bytes. -/
theorem C19_pool_invariant (calls : List PoolCall) (s : SoftBufferAllocMgr)
    (hreach : SoftBufferAllocMgr.new.run calls = some s) :
    (s.getFrameDim = FrameDim.unset ∧ s.getNbBuffers = 0) ∨
    (1 ≤ s.getNbBuffers ∧ ∀ b ∈ s.m_buffer_list, b.size = s.getFrameDim.getMemSize) :=
  soft_run_invariant PoolShape (fun _ => True) shape_step calls SoftBufferAllocMgr.new s
    (Or.inl ⟨rfl, rfl⟩) (fun _ _ => trivial) hreach

/-- An instance of C19: the calls of `poolCalls`, three of which raise, leave two buffers of
1024 bytes. -/
theorem C19_pool_invariant_witness :
    SoftBufferAllocMgr.new.run poolCalls = some ⟨sampleDim, [⟨4096, 1024⟩, ⟨5120, 1024⟩]⟩ ∧
    ((SoftBufferAllocMgr.getFrameDim ⟨sampleDim, [⟨4096, 1024⟩, ⟨5120, 1024⟩]⟩ = FrameDim.unset ∧
        SoftBufferAllocMgr.getNbBuffers ⟨sampleDim, [⟨4096, 1024⟩, ⟨5120, 1024⟩]⟩ = 0) ∨
      (1 ≤ SoftBufferAllocMgr.getNbBuffers ⟨sampleDim, [⟨4096, 1024⟩, ⟨5120, 1024⟩]⟩ ∧
        ∀ b ∈ SoftBufferAllocMgr.m_buffer_list ⟨sampleDim, [⟨4096, 1024⟩, ⟨5120, 1024⟩]⟩,
          b.size =
            (SoftBufferAllocMgr.getFrameDim
              ⟨sampleDim, [⟨4096, 1024⟩, ⟨5120, 1024⟩]⟩).getMemSize)) :=
  ⟨by decide, C19_pool_invariant poolCalls ⟨sampleDim, [⟨4096, 1024⟩, ⟨5120, 1024⟩]⟩ (by decide)⟩

/-- C20: for every state, every `n` and every geometry whose byte size is not positive,
`allocBuffers(n, g)` of the pool and of the manager raises and leaves the state exactly as it
was: the buffers held, their geometry and the timestamp list are kept, the size being tested
before anything is released. The arguments `r` and `rm` are any references that read `g` on
entry: objects, or the geometry of the pool itself. -/
theorem C20_invalid_dim_keeps_state (env : Env) (pool : SoftBufferAllocMgr)
    (mgr : StdBufferCbMgr) (n : Int) (g : FrameDim) (r rm : FrameDimRef)
    (hsize : g.getMemSize ≤ 0) (hr : r.read pool = g) (hrm : rm.read mgr.m_alloc_mgr = g) :
    ((∃ e, (pool.allocBuffers env n r).2 = .raise e) ∧
      (pool.allocBuffers env n r).1 = pool) ∧
    ((∃ e, (mgr.allocBuffers env n rm).2 = .raise e) ∧
      (mgr.allocBuffers env n rm).1 = mgr ∧
      (mgr.allocBuffers env n rm).1.m_alloc_mgr.m_buffer_list = mgr.m_alloc_mgr.m_buffer_list ∧
      (mgr.allocBuffers env n rm).1.getFrameDim = mgr.getFrameDim ∧
      (mgr.allocBuffers env n rm).1.m_ts_list = mgr.m_ts_list) := by
  rw [soft_alloc_invalid_ref env pool n r (by rw [hr]; exact hsize),
    std_alloc_invalid_ref env mgr n rm (by rw [hrm]; exact hsize)]
  exact ⟨⟨⟨_, rfl⟩, rfl⟩, ⟨_, rfl⟩, rfl, rfl, rfl, rfl⟩

/-- An instance of C20: a pool and a manager that hold two buffers keep them when a geometry
of zero bytes is asked for. -/
theorem C20_invalid_dim_keeps_state_witness :
    (samplePool.allocBuffers sampleEnv 7 (.obj emptyDim)).1 = samplePool ∧
    (sampleMgr.allocBuffers sampleEnv 7 (.obj emptyDim)).1 = sampleMgr ∧
    (sampleMgr.allocBuffers sampleEnv 7 (.obj emptyDim)).1.getNbBuffers = 2 :=
  ⟨(C20_invalid_dim_keeps_state sampleEnv samplePool sampleMgr 7 emptyDim (.obj emptyDim)
      (.obj emptyDim) (by decide) rfl rfl).1.2,
   (C20_invalid_dim_keeps_state sampleEnv samplePool sampleMgr 7 emptyDim (.obj emptyDim)
      (.obj emptyDim) (by decide) rfl rfl).2.2.1,
   by decide⟩

end Lima
